import Mathlib

/-!
Verification development for the xds-servicelb Service controller
(`internal/controller/service_controller.go`) and its exposure registry.

The controller source is embedded shallowly below.  The registry
(`internal/graph` package) is not part of the available sources, so it is
modelled from the specification (section 4.2); those definitions carry a
`Modelled from the spec:` doc comment.  Platform library functions
(`net/netip` parsing and ordering, `time.ParseDuration`) are modelled at the
fidelity the claims require; simplifications (no IPv6 zones, no 4-in-6
embedded addresses, integer fraction arithmetic for durations) are noted in
the doc comments.
-/

namespace XdsLB

/-- Model of `netip.Addr`: a single IP address.  `is6` distinguishes the
address family (Go `Is4`/`Is6`); `val` is the numeric address value
(32-bit for IPv4, 128-bit for IPv6).  IPv6 zones and 4-in-6 forms are not
modelled (nothing in the controller produces them). -/
structure Addr where
  is6 : Bool
  val : Nat
deriving DecidableEq, Repr

/-- Go `netip.Addr.Is4`. -/
def Addr.is4 (a : Addr) : Bool := !a.is6

/-- Go `netip.Addr.Less`: addresses sort first by length (IPv4 before IPv6),
then by numeric value. -/
def Addr.lt (a b : Addr) : Bool :=
  (!a.is6 && b.is6) || (a.is6 == b.is6 && a.val < b.val)

/-- Non-strict comparison used when sorting endpoint lists: `¬ (b < a)`. -/
def Addr.le (a b : Addr) : Bool := !(Addr.lt b a)

/-- Model of `netip.AddrPort`. -/
structure AddrPort where
  addr : Addr
  port : Nat
deriving DecidableEq, Repr

/-- Numeric value of a decimal digit list (most significant first). -/
def digitsVal (cs : List Char) : Nat :=
  cs.foldl (fun acc c => acc * 10 + (c.toNat - 48)) 0

/-- Split a character list on a single-character separator (the behaviour of
Go `strings.Split` / Lean `String.splitOn` for a one-character separator,
written structurally so it evaluates in the kernel). -/
def splitChar (sep : Char) : List Char → List (List Char)
  | [] => [[]]
  | c :: t =>
    if c = sep then [] :: splitChar sep t
    else
      match splitChar sep t with
      | [] => [[c]]
      | g :: gs => (c :: g) :: gs

/-- One dotted-quad field of an IPv4 address: 1-3 decimal digits, no leading
zero (Go `netip` rejects leading zeros), value at most 255. -/
def parseOctet (cs : List Char) : Option Nat :=
  if cs.length = 0 || cs.length > 3 then none
  else if !cs.all (·.isDigit) then none
  else if cs.length > 1 && cs.headD ' ' == '0' then none
  else
    let v := digitsVal cs
    if v ≤ 255 then some v else none

/-- Go `netip` IPv4 parsing: exactly four octet fields separated by dots. -/
def parseIPv4 (s : String) : Option Addr := do
  match splitChar '.' s.data with
  | [a, b, c, d] =>
    let va ← parseOctet a
    let vb ← parseOctet b
    let vc ← parseOctet c
    let vd ← parseOctet d
    pure ⟨false, ((va * 256 + vb) * 256 + vc) * 256 + vd⟩
  | _ => none

def isHexDigit (c : Char) : Bool :=
  c.isDigit || ('a' ≤ c && c ≤ 'f') || ('A' ≤ c && c ≤ 'F')

def hexDigitVal (c : Char) : Nat :=
  if c.isDigit then c.toNat - 48
  else if 'a' ≤ c && c ≤ 'f' then c.toNat - 87
  else c.toNat - 55

/-- One 16-bit group of an IPv6 address: 1-4 hex digits. -/
def parseV6Group (cs : List Char) : Option Nat :=
  if cs.length = 0 || cs.length > 4 then none
  else if !cs.all isHexDigit then none
  else some (cs.foldl (fun acc c => acc * 16 + hexDigitVal c) 0)

/-- Combine 16-bit groups (most significant first) into a 128-bit value. -/
def groupsVal (gs : List Nat) : Nat :=
  gs.foldl (fun acc g => acc * 65536 + g) 0

/-- Split at the first `::`, when present (later `::`s then surface as empty
groups on the right side and are rejected, matching the split-on-`::`
behaviour of the Go parser). -/
def splitFirstDC : List Char → List Char × Option (List Char)
  | [] => ([], none)
  | ':' :: ':' :: t => ([], some t)
  | c :: t =>
    match splitFirstDC t with
    | (l, r) => (c :: l, r)

def splitGroups (cs : List Char) : Option (List Nat) :=
  if cs.isEmpty then some []
  else (splitChar ':' cs).mapM parseV6Group

/-- Go `netip` IPv6 parsing, without zone suffixes or embedded IPv4 forms
(the controller never constructs those).  At most one `::`, at most eight
groups, a `::` standing for at least one zero group. -/
def parseIPv6 (s : String) : Option Addr :=
  if s.data.contains '.' || s.data.contains '%' then none
  else
    match splitFirstDC s.data with
    | (whole, none) => do
      let gs ← (splitChar ':' whole).mapM parseV6Group
      if gs.length = 8 then pure ⟨true, groupsVal gs⟩ else none
    | (l, some r) => do
      let gl ← splitGroups l
      let gr ← splitGroups r
      if gl.length + gr.length ≤ 7 then
        pure ⟨true, groupsVal (gl ++ List.replicate (8 - gl.length - gr.length) 0 ++ gr)⟩
      else none

/-- Model of `netip.ParseAddr`: a string containing `:` is parsed as IPv6,
a string containing `.` as IPv4, anything else is invalid. -/
def parseAddr (s : String) : Option Addr :=
  if s.data.contains ':' then parseIPv6 s
  else if s.data.contains '.' then parseIPv4 s
  else none

/-- Model of a CIDR value (`netip.Prefix`). -/
structure Cidr where
  addr : Addr
  bits : Nat
deriving DecidableEq, Repr

/-- Model of `netip.ParsePrefix`: `addr/bits` with `bits` a decimal number
of at most three digits, bounded by the family's bit width. -/
def parseCidr (s : String) : Option Cidr :=
  match splitChar '/' s.data with
  | [a, b] => do
    let ip ← parseAddr (String.mk a)
    if b.length = 0 || b.length > 3 then none
    else if !b.all (·.isDigit) then none
    else
      let v := digitsVal b
      if v ≤ (if ip.is6 then 128 else 32) then pure ⟨ip, v⟩ else none
  | _ => none

/-- Go `time.ParseDuration` unit table, in nanoseconds. -/
def durUnit (s : String) : Option Int :=
  if s = "ns" then some 1
  else if s = "us" || s = "µs" || s = "μs" then some 1000
  else if s = "ms" then some 1000000
  else if s = "s" then some 1000000000
  else if s = "m" then some 60000000000
  else if s = "h" then some 3600000000000
  else none

/-- Scale of a decimal fraction: `10 ^ length`. -/
def fracScale (cs : List Char) : Int := Int.ofNat (10 ^ cs.length)

/-- One `number unit` chunk of a Go duration string plus the remainder.
Fails when there are no digits or the unit is unknown (Go behaviour);
fractional parts use integer arithmetic instead of Go's float64
(no claim depends on fractional rounding). -/
def parseDurChunk (cs : List Char) : Option (Int × List Char) := do
  let (intDs, rest1) : List Char × List Char := cs.span (fun c => c.isDigit)
  let (fracDs, rest2) : List Char × List Char :=
    match rest1 with
    | '.' :: t => t.span (fun c => c.isDigit)
    | _ => ([], rest1)
  let hadDot := rest1.headD ' ' == '.'
  if intDs.isEmpty && fracDs.isEmpty then none
  else
    let (unitCs, rest3) := rest2.span (fun c => !c.isDigit && c ≠ '.')
    let u ← durUnit (String.mk unitCs)
    let whole : Int := Int.ofNat (digitsVal intDs) * u
    let frac : Int :=
      if hadDot then Int.ofNat (digitsVal fracDs) * u / fracScale fracDs else 0
    pure (whole + frac, rest3)

/-- Iterate duration chunks; fuel bounds the recursion (each chunk consumes
at least one character). -/
def parseDurLoop : Nat → List Char → Option Int
  | _, [] => some 0
  | 0, _ :: _ => none
  | fuel + 1, cs@(_ :: _) => do
    let (v, rest) ← parseDurChunk cs
    let w ← parseDurLoop fuel rest
    pure (v + w)

/-- Model of Go `time.ParseDuration`, in nanoseconds. -/
def parseDuration (s : String) : Option Int :=
  let cs := s.data
  let (neg, cs1) :=
    match cs with
    | '-' :: t => (true, t)
    | '+' :: t => (false, t)
    | _ => (false, cs)
  if cs1 = ['0'] then some 0
  else if cs1.isEmpty then none
  else
    (parseDurLoop (cs1.length + 1) cs1).map (fun v => if neg then -v else v)

/-! ## Kubernetes data model (the fields the controller reads) -/

/-- `corev1.Protocol` values that can occur on a Service port. -/
inductive K8sProto | tcp | udp | sctp
deriving DecidableEq, Repr

def K8sProto.str : K8sProto → String
  | .tcp => "TCP"
  | .udp => "UDP"
  | .sctp => "SCTP"

/-- `intstr.IntOrString` (`targetPort`). -/
inductive IntOrString
  | int (v : Int)
  | str (s : String)
deriving DecidableEq, Repr

/-- `corev1.ServicePort`, the fields the controller reads. -/
structure ServicePortSpec where
  name : String
  port : Int
  protocol : K8sProto
  targetPort : IntOrString
  nodePort : Int
deriving DecidableEq, Repr

/-- `corev1.Service`, the fields the controller reads.  (`anns` models the
Go annotation map: lookup of an absent key yields `""`.) -/
structure Service where
  ns : String
  name : String
  typ : String
  loadBalancerClass : Option String
  ports : List ServicePortSpec
  loadBalancerSourceRanges : List String
  anns : List (String × String)
deriving DecidableEq, Repr

/-- Go `svc.Annotations[k]`: absent keys read as the empty string. -/
def lookupAnn (svc : Service) (k : String) : String :=
  match svc.anns.lookup k with
  | some v => v
  | none => ""

def proxyProtocolAnnKey : String := "xds-servicelb.eplight.org/use-proxy-protocol"
def idleTimeoutAnnKey : String := "xds-servicelb.eplight.org/idle-timeout"

/-- `discoveryv1.EndpointPort`. -/
structure EndpointPort where
  name : Option String
  port : Option Int
deriving DecidableEq, Repr

/-- `discoveryv1.Endpoint` (with its readiness condition inlined). -/
structure SliceEndpoint where
  addresses : List String
  nodeName : Option String
  ready : Option Bool
deriving DecidableEq, Repr

/-- `discoveryv1.AddressType`. -/
inductive AddressType | ipv4 | ipv6 | fqdn
deriving DecidableEq, Repr

/-- `discoveryv1.EndpointSlice`; `labelServiceName` is the
`kubernetes.io/service-name` label (empty when absent). -/
structure EndpointSlice where
  ns : String
  labelServiceName : String
  addressType : AddressType
  ports : List EndpointPort
  endpoints : List SliceEndpoint
deriving DecidableEq, Repr

/-- `corev1.NodeAddress` (`type` is the NodeAddressType string). -/
structure NodeAddress where
  type : String
  address : String
deriving DecidableEq, Repr

/-- `corev1.Node`, the fields the controller reads. -/
structure Node where
  name : String
  addresses : List NodeAddress
deriving DecidableEq, Repr

/-- The cluster objects the controller's Get/List calls can observe. -/
structure Cluster where
  slices : List EndpointSlice
  nodes : List Node
deriving DecidableEq, Repr

/-- `internal.AddressSource`. -/
inductive AddressSource | node | pod
deriving DecidableEq, Repr

/-- A configured ingress address (IP or hostname). -/
structure IngressAddr where
  ip : Option Addr
  hostname : String
deriving DecidableEq, Repr

/-- `internal.Config`, the fields the controller reads. -/
structure Config where
  loadBalancerClass : String
  addressSource : AddressSource
  nodeAddressType : String
  useIPv6Endpoints : Bool
  ingressStatus : List IngressAddr
deriving DecidableEq, Repr

/-! ## The graph package data model -/

/-- `k8s.io/utils/net` protocol enum used by `graph.ServicePort`. -/
inductive Protocol | tcp | udp
deriving DecidableEq, Repr

def Protocol.str : Protocol → String
  | .tcp => "TCP"
  | .udp => "UDP"

/-- `graph.ServicePort`: the globally claimed L4 identity. -/
structure ServicePort where
  port : Int
  protocol : Protocol
deriving DecidableEq, Repr

/-- `graph.ServiceEndpoint`: one concrete destination. -/
structure ServiceEndpoint where
  addrPort : AddrPort
  protocol : Protocol
deriving DecidableEq, Repr

/-- `graph.ServicePortData`. -/
structure ServicePortData where
  endpoints : List ServiceEndpoint
  useProxyProtocol : Bool
  idleTimeout : Option Int
  allowedIPRanges : List Cidr
deriving DecidableEq, Repr

/-- Association-list update with Go map-assignment semantics: an existing
key's value is replaced in place, a new key is appended. -/
def insertEntry {κ β : Type} [DecidableEq κ] : List (κ × β) → κ → β → List (κ × β)
  | [], k, v => [(k, v)]
  | (k', v') :: t, k, v =>
    if k' = k then (k, v) :: t else (k', v') :: insertEntry t k v

/-- Association-list lookup (Go map read). -/
def lookupEntry {κ β : Type} [DecidableEq κ] : List (κ × β) → κ → Option β
  | [], _ => none
  | (k', v') :: t, k => if k' = k then some v' else lookupEntry t k

/-- `graph.ServiceData`: map from ServicePort to its data, modelled as an
association list with Go map semantics. -/
structure ServiceData where
  ports : List (ServicePort × ServicePortData)
deriving DecidableEq, Repr

/-- `graph.NewServiceData()`. -/
def NewServiceData : ServiceData := ⟨[]⟩

/-- `types.NamespacedName`. -/
structure ServiceKey where
  ns : String
  name : String
deriving DecidableEq, Repr

/-! ## Exposure registry

Modelled from the spec: the `internal/graph.ServiceGraph` package is not
among the available sources, so the registry state and its operations
follow section 4.2 of the specification: an owners map, a derived
port-ownership index, a version counter; `Conflicts` is a pure read;
`UpdateService` re-validates at commit time, releases the owner's old
ports, claims the new ones, replaces the data wholesale and bumps the
version; `RemoveService` is idempotent. -/
structure Registry where
  owners : List (ServiceKey × ServiceData)
  ownership : List (ServicePort × ServiceKey)
  version : Nat
deriving DecidableEq, Repr

/-- Modelled from the spec: the registry starts empty. -/
def Registry.empty : Registry := ⟨[], [], 0⟩

/-- The ports claimed by a ServiceData. -/
def dataPorts (d : ServiceData) : List ServicePort := d.ports.map (fun e => e.1)

/-- Modelled from the spec: `Conflicts(owner, port)` is true iff the port is
currently claimed by some key other than `owner`; a pure read. -/
def Conflicts (reg : Registry) (owner : ServiceKey) (p : ServicePort) : Bool :=
  match lookupEntry reg.ownership p with
  | some k => decide (k ≠ owner)
  | none => false

/-- Modelled from the spec: `UpdateService(owner, data)` atomically
re-validates (a commit-time conflict rejects the update, leaving the
registry unchanged), releases every port previously held by `owner`,
claims every port of `data` for `owner`, replaces the stored data
wholesale and bumps the version. -/
def UpdateService (reg : Registry) (owner : ServiceKey) (d : ServiceData) : Registry :=
  if (dataPorts d).any (fun p => Conflicts reg owner p) then reg
  else
    { owners := insertEntry reg.owners owner d
      ownership :=
        reg.ownership.filter (fun e => decide (e.2 ≠ owner))
          ++ (dataPorts d).map (fun p => (p, owner))
      version := reg.version + 1 }

/-- Modelled from the spec: `RemoveService(owner)` deletes the owner's entry
and releases all its ports; removing an absent owner is a no-op. -/
def RemoveService (reg : Registry) (owner : ServiceKey) : Registry :=
  if (lookupEntry reg.owners owner).isSome then
    { owners := reg.owners.filter (fun e => decide (e.1 ≠ owner))
      ownership := reg.ownership.filter (fun e => decide (e.2 ≠ owner))
      version := reg.version + 1 }
  else reg

/-! ## The Service controller -/

/-- The error outcomes a reconciliation can surface. -/
inductive RErr
  | apiNotFound
  | noValidNodeAddr
  | addrParse (s : String)
  | durParse (s : String)
  | cidrParse (s : String)
  | svcPortNotFound
  | statusWrite
deriving DecidableEq, Repr

/-- `shouldManage`: type must be LoadBalancer and the declared class (empty
when unset) must equal the configured accepted class. -/
def shouldManage (cfg : Config) (svc : Service) : Bool :=
  if svc.typ ≠ "LoadBalancer" then false
  else
    let svcClass :=
      match svc.loadBalancerClass with
      | some c => c
      | none => ""
    svcClass == cfg.loadBalancerClass

/-- `getServicePorts`: keep TCP and UDP declared ports, drop the rest. -/
def getServicePorts (svc : Service) : List ServicePort :=
  svc.ports.filterMap (fun p =>
    if p.protocol = K8sProto.tcp then some ⟨p.port, Protocol.tcp⟩
    else if p.protocol = K8sProto.udp then some ⟨p.port, Protocol.udp⟩
    else none)

/-- The address scan inside `getNodeAddress`: first entry whose type equals
the configured node-address type, which parses, and whose family matches
the configured one; parse failures and family mismatches are skipped. -/
def scanNodeAddrs (cfg : Config) : List NodeAddress → Except RErr Addr
  | [] => .error .noValidNodeAddr
  | a :: rest =>
    if a.type ≠ cfg.nodeAddressType then scanNodeAddrs cfg rest
    else
      match parseAddr a.address with
      | none => scanNodeAddrs cfg rest
      | some ip =>
        if cfg.useIPv6Endpoints && ip.is6 then .ok ip
        else if !cfg.useIPv6Endpoints && ip.is4 then .ok ip
        else scanNodeAddrs cfg rest

/-- `getNodeAddress`: fetch the Node by name, then scan its addresses. -/
def getNodeAddress (cfg : Config) (cluster : Cluster) (nodeName : String) : Except RErr Addr :=
  match cluster.nodes.find? (fun n => n.name == nodeName) with
  | none => .error .apiNotFound
  | some node => scanNodeAddrs cfg node.addresses

/-- The declared Service port matching a graph port (numeric port and
protocol string equality, first match). -/
def findSvcPort (svc : Service) (port : ServicePort) : Option ServicePortSpec :=
  svc.ports.find? (fun sp =>
    sp.port == port.port && sp.protocol.str == port.protocol.str)

/-- The address-family filter on EndpointSlices. -/
def sliceFamilyOk (cfg : Config) (es : EndpointSlice) : Bool :=
  (es.addressType == AddressType.ipv6 && cfg.useIPv6Endpoints) ||
    (es.addressType == AddressType.ipv4 && !cfg.useIPv6Endpoints)

/-- The slice port entry whose name matches the Service port's name
(both unnamed also matches), first match. -/
def findPortEntry (sp : ServicePortSpec) (es : EndpointSlice) : Option EndpointPort :=
  es.ports.find? (fun epp =>
    match epp.name with
    | some n => sp.name == n
    | none => sp.name == "")

/-- Numeric port for a slice port entry: its own value, else the Service's
numeric target port; a string target port makes the slice unusable. -/
def resolvePortVal (sp : ServicePortSpec) (epp : EndpointPort) : Option Int :=
  match epp.port with
  | some v => some v
  | none =>
    match sp.targetPort with
    | .str _ => none
    | .int v => some v

/-- Go `uint16(x)` conversion of an `int32` port value. -/
def toPort16 (v : Int) : Nat := (v % 65536).toNat

/-- Endpoint readiness: defaults to true when the condition is absent. -/
def epReady (ep : SliceEndpoint) : Bool :=
  match ep.ready with
  | some b => b
  | none => true

/-- The `ips` map of `buildEndpoints`, as an insertion-ordered association
list (Go iterates maps in an unspecified order; theorems quantify over
enumerations). -/
abbrev IpsMap := List (AddrPort × Bool)

/-- Node-mode handling of one slice endpoint: needs a node name and a
non-zero allocated node-port; a node-address resolution failure drops the
endpoint (never an error). -/
def processEndpointNode (cfg : Config) (cluster : Cluster) (sp : ServicePortSpec)
    (m : IpsMap) (ep : SliceEndpoint) : IpsMap :=
  match ep.nodeName with
  | some n =>
    if sp.nodePort ≠ 0 then
      match getNodeAddress cfg cluster n with
      | .error _ => m
      | .ok ip => insertEntry m ⟨ip, toPort16 sp.nodePort⟩ (epReady ep)
    else m
  | none => m

/-- Pod-mode handling of one endpoint's address strings: a parse failure is
a hard error of the whole resolution. -/
def processPodAddrs (pv : Nat) (rdy : Bool) (m : IpsMap) :
    List String → Except RErr IpsMap
  | [] => .ok m
  | a :: rest =>
    match parseAddr a with
    | none => .error (.addrParse a)
    | some ip => processPodAddrs pv rdy (insertEntry m ⟨ip, pv⟩ rdy) rest

/-- One slice endpoint, dispatching on the configured address source. -/
def processEndpoint (cfg : Config) (cluster : Cluster) (sp : ServicePortSpec) (pv : Int)
    (m : IpsMap) (ep : SliceEndpoint) : Except RErr IpsMap :=
  if cfg.addressSource = AddressSource.node then
    .ok (processEndpointNode cfg cluster sp m ep)
  else
    processPodAddrs (toPort16 pv) (epReady ep) m ep.addresses

/-- One EndpointSlice of `buildEndpoints`: family filter, port-entry match,
port-value resolution, then every endpoint in order. -/
def processSlice (cfg : Config) (cluster : Cluster) (sp : ServicePortSpec)
    (m : IpsMap) (es : EndpointSlice) : Except RErr IpsMap :=
  if !sliceFamilyOk cfg es then .ok m
  else
    match findPortEntry sp es with
    | none => .ok m
    | some epp =>
      match resolvePortVal sp epp with
      | none => .ok m
      | some pv => es.endpoints.foldlM (processEndpoint cfg cluster sp pv) m

/-- The EndpointSlices the `List` call returns: same namespace, labelled
with the Service's name. -/
def relevantSlices (cluster : Cluster) (svc : Service) : List EndpointSlice :=
  cluster.slices.filter (fun es => es.ns == svc.ns && es.labelServiceName == svc.name)

/-- The fully accumulated `ips` map of `buildEndpoints`. -/
def buildIpsMap (cfg : Config) (cluster : Cluster) (svc : Service)
    (sp : ServicePortSpec) : Except RErr IpsMap :=
  (relevantSlices cluster svc).foldlM (processSlice cfg cluster sp) ([] : IpsMap)

/-- One insertion step of the comparison sort by address. -/
def insertSorted (x : AddrPort) : List AddrPort → List AddrPort
  | [] => [x]
  | y :: t => if Addr.le x.addr y.addr then x :: y :: t else y :: insertSorted x t

/-- `sort.Slice(ipList, less by address)`: a comparison sort by address.
Go's sort is unstable and its input order comes from map enumeration, so
the relative order of entries sharing an address is run-dependent; the
theorems quantify over map enumerations to capture that. -/
def sortIps (l : List AddrPort) : List AddrPort :=
  l.foldr insertSorted []

/-- The tail of `buildEndpoints` applied to one enumeration of the `ips`
map: keep ready entries, sort by address, attach the protocol. -/
def finishEndpoints (proto : Protocol) (entries : List (AddrPort × Bool)) :
    List ServiceEndpoint :=
  (sortIps ((entries.filter (fun e => e.2)).map (fun e => e.1))).map
    (fun ip => ⟨ip, proto⟩)

/-- `buildEndpoints` (the deterministic run that enumerates the map in
insertion order). -/
def buildEndpoints (cfg : Config) (cluster : Cluster) (svc : Service)
    (port : ServicePort) : Except RErr (List ServiceEndpoint) :=
  match findSvcPort svc port with
  | none => .error .svcPortNotFound
  | some sp => (buildIpsMap cfg cluster svc sp).map (finishEndpoints port.protocol)

/-- The `loadBalancerSourceRanges` loop of `buildServiceData`: parse each
entry in order, failing on the first malformed one. -/
def parseRanges : List String → Except RErr (List Cidr)
  | [] => .ok []
  | s :: rest =>
    match parseCidr s with
    | none => .error (.cidrParse s)
    | some p => (parseRanges rest).map (fun l => p :: l)

/-- The idle-timeout annotation handling of `buildServiceData`: absent (read
as `""`) means no timeout, a present value must parse as a duration. -/
def idleStep (svc : Service) : Except RErr (Option Int) :=
  if lookupAnn svc idleTimeoutAnnKey ≠ "" then
    match parseDuration (lookupAnn svc idleTimeoutAnnKey) with
    | none => .error (.durParse (lookupAnn svc idleTimeoutAnnKey))
    | some d => .ok (some d)
  else .ok none

/-- The per-port loop body of `buildServiceData`: resolve endpoints and
store them with the Service-wide settings under the port's key. -/
def portStep (cfg : Config) (cluster : Cluster) (svc : Service) (U : Bool)
    (I : Option Int) (R : List Cidr)
    (acc : List (ServicePort × ServicePortData)) (port : ServicePort) :
    Except RErr (List (ServicePort × ServicePortData)) :=
  match buildEndpoints cfg cluster svc port with
  | .error e => .error e
  | .ok eps => .ok (insertEntry acc port ⟨eps, U, I, R⟩)

/-- `buildServiceData`: parse the proxy-protocol and idle-timeout
annotation values and the source-range CIDRs, then resolve endpoints for
every accepted port (written with explicit error propagation). -/
def buildServiceData (cfg : Config) (cluster : Cluster) (svc : Service)
    (ports : List ServicePort) : Except RErr ServiceData :=
  match idleStep svc with
  | .error e => .error e
  | .ok idleTimeout =>
    match parseRanges svc.loadBalancerSourceRanges with
    | .error e => .error e
    | .ok allowedIPRanges =>
      match ports.foldlM (portStep cfg cluster svc
          (lookupAnn svc proxyProtocolAnnKey == "true") idleTimeout allowedIPRanges) [] with
      | .error e => .error e
      | .ok portsData => .ok ⟨portsData⟩

/-- Everything one `Reconcile` call produces: the returned result
(`requeueAfter` in nanoseconds) and error, the registry afterwards, the
events recorded, and whether a status write was attempted. -/
structure Outcome where
  requeueAfter : Option Int
  err : Option RErr
  reg : Registry
  events : List ServicePort
  statusWritten : Bool
deriving DecidableEq, Repr

/-- `Reconcile`.  `svcOpt = none` models a not-found Get; `statusWriteOk`
models whether the status update call succeeds. -/
def reconcile (cfg : Config) (cluster : Cluster) (key : ServiceKey)
    (svcOpt : Option Service) (reg : Registry) (statusWriteOk : Bool) : Outcome :=
  match svcOpt with
  | none => ⟨none, none, RemoveService reg key, [], false⟩
  | some svc =>
    if !shouldManage cfg svc then ⟨none, none, reg, [], false⟩
    else
      let ports := getServicePorts svc
      match ports.find? (fun p => Conflicts reg key p) with
      | some p => ⟨some 60000000000, none, reg, [p], false⟩
      | none =>
        match buildServiceData cfg cluster svc ports with
        | .error e => ⟨none, some e, reg, [], false⟩
        | .ok data =>
          let reg' := UpdateService reg key data
          if statusWriteOk then ⟨none, none, reg', [], true⟩
          else ⟨none, some .statusWrite, reg', [], true⟩

/-- Spec-side pick function for one reported node address: accepted iff its
type equals the configured node-address type, it parses, and its family
matches the configured one. -/
def nodePick (cfg : Config) (a : NodeAddress) : Option Addr :=
  if a.type = cfg.nodeAddressType then
    match parseAddr a.address with
    | none => none
    | some ip =>
      if (cfg.useIPv6Endpoints && ip.is6) || (!cfg.useIPv6Endpoints && ip.is4) then some ip
      else none
  else none

/-- The configuration of the spec's node-mode examples:
`{nodeAddressType: InternalIP, IPv6: false}`. -/
def exCfgNode : Config := ⟨"", AddressSource.node, "InternalIP", false, []⟩

/-- Node `n1` with `[{InternalIP,"10.0.0.5"},{ExternalIP,"1.2.3.4"}]`. -/
def exNode1 : Node := ⟨"n1", [⟨"InternalIP", "10.0.0.5"⟩, ⟨"ExternalIP", "1.2.3.4"⟩]⟩

/-- Node `n1` with only an IPv6 InternalIP `fd00::5`. -/
def exNode2 : Node := ⟨"n1", [⟨"InternalIP", "fd00::5"⟩]⟩

/-- Each ServicePort is owned by at most one ServiceKey. -/
def PortUniq (reg : Registry) : Prop :=
  ∀ p k₁ k₂, (p, k₁) ∈ reg.ownership → (p, k₂) ∈ reg.ownership → k₁ = k₂

/-- How a node-mode map entry came to exist: its endpoint referenced a node
name, the Service port carried a non-zero node-port, the node address
resolved, and the entry pairs that address with the node-port. -/
def NodeProv (cfg : Config) (cluster : Cluster) (sp : ServicePortSpec)
    (ep : SliceEndpoint) (e : AddrPort × Bool) : Prop :=
  ∃ n, ep.nodeName = some n ∧ sp.nodePort ≠ 0 ∧
    ∃ ip, getNodeAddress cfg cluster n = .ok ip ∧
      e.1 = ⟨ip, toPort16 sp.nodePort⟩

/-- Pod-mode input whose two slices put the same address under two
different resolved ports: the dedup map then holds two entries sharing an
address, whose relative output order depends on the map enumeration. -/
def cexCfg : Config := ⟨"", AddressSource.pod, "InternalIP", false, []⟩

def cexSp : ServicePortSpec := ⟨"", 80, K8sProto.tcp, IntOrString.int 8080, 0⟩

def cexSvc : Service := ⟨"d", "web", "LoadBalancer", none, [cexSp], [], []⟩

def cexCluster : Cluster :=
  ⟨[⟨"d", "web", AddressType.ipv4, [⟨none, some 8080⟩], [⟨["10.0.0.1"], none, some true⟩]⟩,
    ⟨"d", "web", AddressType.ipv4, [⟨none, some 9090⟩], [⟨["10.0.0.1"], none, some true⟩]⟩],
   []⟩

def cexEntries : IpsMap :=
  [(⟨⟨false, 167772161⟩, 8080⟩, true), (⟨⟨false, 167772161⟩, 9090⟩, true)]

/-! ## Association-list lemmas -/

theorem mem_insertEntry {κ β : Type} [DecidableEq κ] {m : List (κ × β)} {k : κ} {v : β}
    {e : κ × β} : e ∈ insertEntry m k v → e ∈ m ∨ e = (k, v) := by
  induction m with
  | nil => intro h; simpa [insertEntry] using h
  | cons hd t ih =>
    intro h
    rcases hd with ⟨k', v'⟩
    by_cases hk : k' = k
    · simp only [insertEntry, if_pos hk] at h
      rcases List.mem_cons.mp h with h | h
      · right; exact h
      · left; exact List.mem_cons_of_mem _ h
    · simp only [insertEntry, if_neg hk] at h
      rcases List.mem_cons.mp h with h | h
      · left; exact h ▸ List.mem_cons_self _ _
      · rcases ih h with h' | h'
        · left; exact List.mem_cons_of_mem _ h'
        · right; exact h'

theorem keys_insertEntry {κ β : Type} [DecidableEq κ] (m : List (κ × β)) (k : κ) (v : β) :
    (insertEntry m k v).map Prod.fst = m.map Prod.fst ∨
      (insertEntry m k v).map Prod.fst = m.map Prod.fst ++ [k] ∧ k ∉ m.map Prod.fst := by
  induction m with
  | nil => right; simp [insertEntry]
  | cons hd t ih =>
    rcases hd with ⟨k', v'⟩
    by_cases hk : k' = k
    · left; simp [insertEntry, if_pos hk, hk]
    · rcases ih with ih | ⟨ih, hk2⟩
      · left; simp [insertEntry, if_neg hk, ih]
      · right
        constructor
        · simp [insertEntry, if_neg hk, ih]
        · simp only [List.map_cons, List.mem_cons]
          rintro (h | h)
          · exact hk h.symm
          · exact hk2 h

theorem nodup_keys_insertEntry {κ β : Type} [DecidableEq κ] {m : List (κ × β)} {k : κ} {v : β}
    (h : (m.map Prod.fst).Nodup) : ((insertEntry m k v).map Prod.fst).Nodup := by
  rcases keys_insertEntry m k v with he | ⟨he, hk⟩
  · rw [he]; exact h
  · rw [he]
    simp only [List.nodup_append, List.nodup_cons, List.nodup_nil]
    exact ⟨h, ⟨by simp, trivial⟩, by simpa using hk⟩

theorem lookupEntry_insertEntry_self {κ β : Type} [DecidableEq κ] (m : List (κ × β))
    (k : κ) (v : β) : lookupEntry (insertEntry m k v) k = some v := by
  induction m with
  | nil => simp [insertEntry, lookupEntry]
  | cons hd t ih =>
    rcases hd with ⟨k', v'⟩
    by_cases hk : k' = k
    · simp [insertEntry, if_pos hk, lookupEntry]
    · simp [insertEntry, if_neg hk, lookupEntry, hk, ih]

theorem lookupEntry_insertEntry_ne {κ β : Type} [DecidableEq κ] (m : List (κ × β))
    {k k' : κ} (v : β) (h : k' ≠ k) :
    lookupEntry (insertEntry m k v) k' = lookupEntry m k' := by
  have hne : ¬(k = k') := fun h' => h h'.symm
  induction m with
  | nil => simp [insertEntry, lookupEntry, hne]
  | cons hd t ih =>
    rcases hd with ⟨k₀, v₀⟩
    by_cases hk : k₀ = k
    · subst hk
      simp [insertEntry, lookupEntry, hne]
    · simp only [insertEntry, if_neg hk, lookupEntry]
      by_cases hk' : k₀ = k'
      · simp [hk']
      · simp [hk', ih]

theorem lookupEntry_mem {κ β : Type} [DecidableEq κ] {m : List (κ × β)} {k : κ} {v : β} :
    lookupEntry m k = some v → (k, v) ∈ m := by
  induction m with
  | nil => intro h; simp [lookupEntry] at h
  | cons hd t ih =>
    intro h
    rcases hd with ⟨k₀, v₀⟩
    by_cases hk : k₀ = k
    · subst hk
      simp [lookupEntry] at h
      subst h
      exact List.mem_cons_self _ _
    · rw [show lookupEntry ((k₀, v₀) :: t) k = lookupEntry t k from by
        simp only [lookupEntry]; rw [if_neg hk]] at h
      exact List.mem_cons_of_mem _ (ih h)

theorem lookupEntry_eq_none {κ β : Type} [DecidableEq κ] {m : List (κ × β)} {k : κ} :
    k ∉ m.map Prod.fst → lookupEntry m k = none := by
  induction m with
  | nil => intro _; simp [lookupEntry]
  | cons hd t ih =>
    intro h
    rcases hd with ⟨k₀, v₀⟩
    simp only [List.map_cons, List.mem_cons] at h
    push_neg at h
    simp only [lookupEntry]
    rw [if_neg (Ne.symm h.1)]
    exact ih h.2

theorem mem_lookupEntry {κ β : Type} [DecidableEq κ] {m : List (κ × β)} {k : κ} {v : β} :
    (m.map Prod.fst).Nodup → (k, v) ∈ m → lookupEntry m k = some v := by
  induction m with
  | nil => intro _ h; simp at h
  | cons hd t ih =>
    intro hn h
    rcases hd with ⟨k₀, v₀⟩
    simp only [List.map_cons, List.nodup_cons] at hn
    rcases List.mem_cons.mp h with h' | h'
    · cases h'
      simp [lookupEntry]
    · have hk : k₀ ≠ k := by
        rintro rfl
        exact hn.1 (List.mem_map.mpr ⟨(k₀, v), h', rfl⟩)
      simp only [lookupEntry, if_neg hk]
      exact ih hn.2 h'

theorem lookupEntry_append_left {κ β : Type} [DecidableEq κ] {m₁ : List (κ × β)}
    (m₂ : List (κ × β)) {k : κ} {v : β} (h : lookupEntry m₁ k = some v) :
    lookupEntry (m₁ ++ m₂) k = some v := by
  induction m₁ with
  | nil => simp [lookupEntry] at h
  | cons hd t ih =>
    rcases hd with ⟨k₀, v₀⟩
    by_cases hk : k₀ = k
    · simp only [lookupEntry, if_pos hk] at h ⊢
      exact h
    · simp only [lookupEntry, if_neg hk] at h ⊢
      exact ih h

theorem lookupEntry_append_right {κ β : Type} [DecidableEq κ] {m₁ : List (κ × β)}
    (m₂ : List (κ × β)) {k : κ} (h : k ∉ m₁.map Prod.fst) :
    lookupEntry (m₁ ++ m₂) k = lookupEntry m₂ k := by
  induction m₁ with
  | nil => simp
  | cons hd t ih =>
    rcases hd with ⟨k₀, v₀⟩
    simp only [List.map_cons, List.mem_cons] at h
    push_neg at h
    simp only [List.cons_append, lookupEntry]
    rw [if_neg (Ne.symm h.1)]
    exact ih h.2

/-! ## Fold lemmas over `Except` -/

theorem foldlM_ok_induct {ε σ α : Type} (f : σ → α → Except ε σ) (P : σ → Prop)
    (hstep : ∀ s a s', P s → f s a = .ok s' → P s') :
    ∀ (l : List α) (s s' : σ), P s → l.foldlM f s = .ok s' → P s' := by
  intro l
  induction l with
  | nil =>
    intro s s' hP h
    simp only [List.foldlM_nil, pure, Except.pure, Except.ok.injEq] at h
    exact h ▸ hP
  | cons a t ih =>
    intro s s' hP h
    rw [List.foldlM_cons] at h
    cases hfa : f s a with
    | error e => rw [hfa] at h; simp [Bind.bind, Except.bind] at h
    | ok t' =>
      rw [hfa] at h
      simp only [Bind.bind, Except.bind] at h
      exact ih t' s' (hstep s a t' hP hfa) h

theorem foldlM_ok_total {ε σ α : Type} (f : σ → α → Except ε σ)
    (h : ∀ s a, ∃ t, f s a = .ok t) :
    ∀ (l : List α) (s : σ), ∃ s', l.foldlM f s = .ok s' := by
  intro l
  induction l with
  | nil => intro s; exact ⟨s, by simp [List.foldlM_nil, pure, Except.pure]⟩
  | cons a t ih =>
    intro s
    rcases h s a with ⟨t', ht'⟩
    rcases ih t' with ⟨s', hs'⟩
    exact ⟨s', by rw [List.foldlM_cons, ht']; simpa [Bind.bind, Except.bind] using hs'⟩

theorem foldlM_error_of_mem {ε σ α : Type} (f : σ → α → Except ε σ) {a₀ : α}
    (herr : ∀ s, ∃ e, f s a₀ = Except.error e) :
    ∀ (l : List α), a₀ ∈ l → ∀ s, ∃ e, l.foldlM f s = Except.error e := by
  intro l
  induction l with
  | nil => intro h; simp at h
  | cons a t ih =>
    intro hmem s
    rcases List.mem_cons.mp hmem with rfl | hmem'
    · rcases herr s with ⟨e, he⟩
      exact ⟨e, by rw [List.foldlM_cons, he]; simp [Bind.bind, Except.bind]⟩
    · cases hfa : f s a with
      | error e => exact ⟨e, by rw [List.foldlM_cons, hfa]; simp [Bind.bind, Except.bind]⟩
      | ok t' =>
        rcases ih hmem' t' with ⟨e, he⟩
        exact ⟨e, by rw [List.foldlM_cons, hfa]; simpa [Bind.bind, Except.bind] using he⟩

theorem foldlM_mem_provenance {ε γ α : Type} (f : List γ → α → Except ε (List γ))
    (R : α → γ → Prop)
    (hstep : ∀ s a s', f s a = .ok s' → ∀ e ∈ s', e ∈ s ∨ R a e) :
    ∀ (l : List α) (s s' : List γ), l.foldlM f s = .ok s' →
      ∀ e ∈ s', e ∈ s ∨ ∃ a ∈ l, R a e := by
  intro l
  induction l with
  | nil =>
    intro s s' h e he
    simp only [List.foldlM_nil, pure, Except.pure, Except.ok.injEq] at h
    exact Or.inl (h ▸ he)
  | cons a t ih =>
    intro s s' h e he
    rw [List.foldlM_cons] at h
    cases hfa : f s a with
    | error er => rw [hfa] at h; simp [Bind.bind, Except.bind] at h
    | ok t' =>
      rw [hfa] at h
      simp only [Bind.bind, Except.bind] at h
      rcases ih t' s' h e he with h' | ⟨a', ha', hR⟩
      · rcases hstep s a t' hfa e h' with h'' | hR
        · exact Or.inl h''
        · exact Or.inr ⟨a, List.mem_cons_self _ _, hR⟩
      · exact Or.inr ⟨a', List.mem_cons_of_mem _ ha', hR⟩

/-! ## Address-order lemmas -/

theorem addrLe_trans (a b c : Addr) (hab : Addr.le a b = true) (hbc : Addr.le b c = true) :
    Addr.le a c = true := by
  rcases a with ⟨a6, av⟩; rcases b with ⟨b6, bv⟩; rcases c with ⟨c6, cv⟩
  simp only [Addr.le, Addr.lt] at *
  cases a6 <;> cases b6 <;> cases c6 <;> simp_all <;> omega

theorem addrLe_total (a b : Addr) : (Addr.le a b || Addr.le b a) = true := by
  rcases a with ⟨a6, av⟩; rcases b with ⟨b6, bv⟩
  simp only [Addr.le, Addr.lt]
  cases a6 <;> cases b6 <;> simp <;> omega

theorem addrLt_asymm {a b : Addr} (h1 : Addr.lt a b = true) (h2 : Addr.lt b a = true) :
    False := by
  rcases a with ⟨a6, av⟩; rcases b with ⟨b6, bv⟩
  simp only [Addr.lt] at *
  cases a6 <;> cases b6 <;> simp_all <;> omega

theorem addrLt_of_le_of_ne {a b : Addr} (h : Addr.le a b = true) (hne : a ≠ b) :
    Addr.lt a b = true := by
  rcases a with ⟨a6, av⟩; rcases b with ⟨b6, bv⟩
  simp only [Addr.le, Addr.lt, ne_eq, Addr.mk.injEq] at *
  cases a6 <;> cases b6 <;> simp_all <;> omega

/-! ## Node-address resolution (C7) -/

theorem scanNodeAddrs_eq_first (cfg : Config) : ∀ l : List NodeAddress,
    scanNodeAddrs cfg l =
      match (l.filterMap (nodePick cfg)).head? with
      | some ip => Except.ok ip
      | none => Except.error RErr.noValidNodeAddr := by
  intro l
  induction l with
  | nil => rfl
  | cons a rest ih =>
    by_cases ht : a.type = cfg.nodeAddressType
    · cases hp : parseAddr a.address with
      | none =>
        rw [show scanNodeAddrs cfg (a :: rest) = scanNodeAddrs cfg rest from by
          simp [scanNodeAddrs, ht, hp]]
        rw [show (a :: rest).filterMap (nodePick cfg) = rest.filterMap (nodePick cfg) from by
          simp [List.filterMap_cons, nodePick, ht, hp]]
        exact ih
      | some ip =>
        by_cases hfam : ((cfg.useIPv6Endpoints && ip.is6) ||
            (!cfg.useIPv6Endpoints && ip.is4)) = true
        · have hscan : scanNodeAddrs cfg (a :: rest) = .ok ip := by
            rcases Bool.or_eq_true_iff.mp hfam with h6 | h4
            · simp [scanNodeAddrs, ht, hp, Bool.and_eq_true_iff.mp h6]
            · rcases Bool.and_eq_true_iff.mp h4 with ⟨hn6, h4'⟩
              by_cases h6e : (cfg.useIPv6Endpoints && ip.is6) = true
              · simp [scanNodeAddrs, ht, hp, Bool.and_eq_true_iff.mp h6e]
              · simp [scanNodeAddrs, ht, hp, h6e, hn6, h4']
          rw [hscan]
          rw [show (a :: rest).filterMap (nodePick cfg) =
              ip :: rest.filterMap (nodePick cfg) from by
            simp [List.filterMap_cons, nodePick, ht, hp, hfam]]
          rfl
        · have hscan : scanNodeAddrs cfg (a :: rest) = scanNodeAddrs cfg rest := by
            simp only [Bool.or_eq_true_iff, not_or] at hfam
            simp [scanNodeAddrs, ht, hp, hfam.1, hfam.2]
          rw [hscan]
          rw [show (a :: rest).filterMap (nodePick cfg) = rest.filterMap (nodePick cfg) from by
            simp only [Bool.or_eq_true_iff, not_or] at hfam
            simp [List.filterMap_cons, nodePick, ht, hp, hfam.1, hfam.2]]
          exact ih
    · rw [show scanNodeAddrs cfg (a :: rest) = scanNodeAddrs cfg rest from by
        simp [scanNodeAddrs, ht]]
      rw [show (a :: rest).filterMap (nodePick cfg) = rest.filterMap (nodePick cfg) from by
        simp [List.filterMap_cons, nodePick, ht]]
      exact ih

/-- C7: node-address sub-resolution returns the first reported address whose
type equals the configured `nodeAddressType` and whose family matches the
configured family, skipping unparsable entries without error, and fails
with the distinct "no valid node address" error when no entry matches. -/
theorem c7_node_address_first_match (cfg : Config) (cluster : Cluster)
    (nodeName : String) (node : Node)
    (hfind : cluster.nodes.find? (fun n => n.name == nodeName) = some node) :
    getNodeAddress cfg cluster nodeName =
      match (node.addresses.filterMap (nodePick cfg)).head? with
      | some ip => Except.ok ip
      | none => Except.error RErr.noValidNodeAddr := by
  rw [getNodeAddress, hfind]
  exact scanNodeAddrs_eq_first cfg node.addresses

theorem c7_node_address_first_match_witness :
    getNodeAddress exCfgNode ⟨[], [exNode1]⟩ "n1" = Except.ok ⟨false, 167772165⟩ ∧
    getNodeAddress exCfgNode ⟨[], [exNode2]⟩ "n1" = Except.error RErr.noValidNodeAddr := by
  constructor
  · exact (c7_node_address_first_match exCfgNode ⟨[], [exNode1]⟩ "n1" exNode1 (by rfl)).trans
      (by rfl)
  · exact (c7_node_address_first_match exCfgNode ⟨[], [exNode2]⟩ "n1" exNode2 (by rfl)).trans
      (by rfl)

/-! ## Reconcile-level claims (C1, C3, C9) -/

/-- C1: for a managed Service with a conflicting accepted port, `Reconcile`
emits exactly one warning event naming a conflicting port, requeues after
exactly one minute, returns no error, leaves the registry untouched, and
its outcome does not depend on the cluster's EndpointSlices or Nodes at
all (no endpoint resolution happens). -/
theorem c1_conflict_no_mutation (cfg : Config) (key : ServiceKey) (svc : Service)
    (reg : Registry) (p : ServicePort)
    (hm : shouldManage cfg svc = true)
    (hp : p ∈ getServicePorts svc) (hc : Conflicts reg key p = true) :
    ∃ q, q ∈ getServicePorts svc ∧ Conflicts reg key q = true ∧
      ∀ (cluster : Cluster) (ok : Bool),
        reconcile cfg cluster key (some svc) reg ok =
          ⟨some 60000000000, none, reg, [q], false⟩ := by
  have hex : ((getServicePorts svc).find? (fun q => Conflicts reg key q)).isSome := by
    rw [List.find?_isSome]
    exact ⟨p, hp, hc⟩
  obtain ⟨q, hq⟩ := Option.isSome_iff_exists.mp hex
  refine ⟨q, List.mem_of_find?_eq_some hq, List.find?_some hq, fun cluster ok => ?_⟩
  simp [reconcile, hm, hq]

theorem c1_conflict_no_mutation_witness :
    ∃ q, q ∈ getServicePorts ⟨"d", "s", "LoadBalancer", none,
        [⟨"", 80, K8sProto.tcp, IntOrString.int 80, 0⟩], [], []⟩ ∧
      Conflicts ⟨[], [(⟨80, Protocol.tcp⟩, ⟨"d", "other"⟩)], 0⟩ ⟨"d", "s"⟩ q = true ∧
      ∀ (cluster : Cluster) (ok : Bool),
        reconcile ⟨"", AddressSource.pod, "InternalIP", false, []⟩ cluster ⟨"d", "s"⟩
          (some ⟨"d", "s", "LoadBalancer", none,
            [⟨"", 80, K8sProto.tcp, IntOrString.int 80, 0⟩], [], []⟩)
          ⟨[], [(⟨80, Protocol.tcp⟩, ⟨"d", "other"⟩)], 0⟩ ok =
          ⟨some 60000000000, none, ⟨[], [(⟨80, Protocol.tcp⟩, ⟨"d", "other"⟩)], 0⟩, [q], false⟩ :=
  c1_conflict_no_mutation _ _ _ _ ⟨80, Protocol.tcp⟩ (by decide) (by decide) (by decide)

theorem parseRanges_error_of_mem {s₀ : String} :
    ∀ l : List String, s₀ ∈ l → parseCidr s₀ = none →
      ∃ e, parseRanges l = Except.error e := by
  intro l
  induction l with
  | nil => intro h; simp at h
  | cons a t ih =>
    intro hmem hbad
    rcases List.mem_cons.mp hmem with rfl | hmem'
    · exact ⟨.cidrParse s₀, by simp [parseRanges, hbad]⟩
    · cases hfa : parseCidr a with
      | none => exact ⟨.cidrParse a, by simp [parseRanges, hfa]⟩
      | some p =>
        rcases ih hmem' hbad with ⟨e, he⟩
        exact ⟨e, by simp [parseRanges, hfa, he, Except.map]⟩

theorem buildServiceData_error_of_malformed (cfg : Config) (cluster : Cluster)
    (svc : Service) (ports : List ServicePort)
    (hbad : (lookupAnn svc idleTimeoutAnnKey ≠ "" ∧
        parseDuration (lookupAnn svc idleTimeoutAnnKey) = none) ∨
      ∃ s ∈ svc.loadBalancerSourceRanges, parseCidr s = none) :
    ∃ e, buildServiceData cfg cluster svc ports = .error e := by
  by_cases hann : lookupAnn svc idleTimeoutAnnKey = ""
  · rcases hbad with ⟨hne, _⟩ | hb
    · exact absurd hann hne
    · obtain ⟨s₀, hs₀, hps₀⟩ := hb
      obtain ⟨e, he⟩ := parseRanges_error_of_mem _ hs₀ hps₀
      refine ⟨e, ?_⟩
      rw [buildServiceData, idleStep, if_neg (fun h => h hann), he]
  · cases hpd : parseDuration (lookupAnn svc idleTimeoutAnnKey) with
    | none =>
      refine ⟨RErr.durParse (lookupAnn svc idleTimeoutAnnKey), ?_⟩
      rw [buildServiceData, idleStep, if_pos hann, hpd]
    | some d =>
      rcases hbad with ⟨_, hpdn⟩ | hb
      · rw [hpd] at hpdn; exact absurd hpdn (by simp)
      · obtain ⟨s₀, hs₀, hps₀⟩ := hb
        obtain ⟨e, he⟩ := parseRanges_error_of_mem _ hs₀ hps₀
        refine ⟨e, ?_⟩
        rw [buildServiceData, idleStep, if_pos hann, hpd, he]

/-- C3: a managed, conflict-free Service whose idle-timeout annotation value
does not parse as a duration, or one of whose `loadBalancerSourceRanges`
entries does not parse as a CIDR, fails the whole reconciliation with an
error before any commit: no event, no status write, and the registry is
exactly what it was. -/
theorem c3_malformed_no_commit (cfg : Config) (cluster : Cluster) (key : ServiceKey)
    (svc : Service) (reg : Registry) (ok : Bool)
    (hm : shouldManage cfg svc = true)
    (hnc : (getServicePorts svc).find? (fun p => Conflicts reg key p) = none)
    (hbad : (lookupAnn svc idleTimeoutAnnKey ≠ "" ∧
        parseDuration (lookupAnn svc idleTimeoutAnnKey) = none) ∨
      ∃ s ∈ svc.loadBalancerSourceRanges, parseCidr s = none) :
    ∃ e, reconcile cfg cluster key (some svc) reg ok = ⟨none, some e, reg, [], false⟩ := by
  obtain ⟨e, he⟩ :=
    buildServiceData_error_of_malformed cfg cluster svc (getServicePorts svc) hbad
  exact ⟨e, by simp [reconcile, hm, hnc, he]⟩

theorem c3_malformed_no_commit_witness :
    ∃ e, reconcile ⟨"", AddressSource.pod, "InternalIP", false, []⟩ ⟨[], []⟩ ⟨"d", "s"⟩
      (some ⟨"d", "s", "LoadBalancer", none, [⟨"", 80, K8sProto.tcp, IntOrString.int 80, 0⟩],
        [], [(idleTimeoutAnnKey, "30x")]⟩)
      Registry.empty true = ⟨none, some e, Registry.empty, [], false⟩ :=
  c3_malformed_no_commit _ _ _ _ _ _ (by decide) (by decide)
    (Or.inl (by constructor <;> decide))

/-- C9: for a managed, conflict-free Service whose data builds successfully,
the registry commit happens regardless of the status write's outcome: with
a failing status write `Reconcile` returns the error, yet the registry
holds exactly the same freshly committed data as in the successful case. -/
theorem c9_commit_survives_status_failure (cfg : Config) (cluster : Cluster)
    (key : ServiceKey) (svc : Service) (reg : Registry) (data : ServiceData)
    (hm : shouldManage cfg svc = true)
    (hnc : (getServicePorts svc).find? (fun p => Conflicts reg key p) = none)
    (hdata : buildServiceData cfg cluster svc (getServicePorts svc) = .ok data) :
    reconcile cfg cluster key (some svc) reg false =
      ⟨none, some RErr.statusWrite, UpdateService reg key data, [], true⟩ ∧
    reconcile cfg cluster key (some svc) reg true =
      ⟨none, none, UpdateService reg key data, [], true⟩ := by
  constructor <;> simp [reconcile, hm, hnc, hdata]

theorem c9_commit_survives_status_failure_witness :
    reconcile ⟨"", AddressSource.pod, "InternalIP", false, []⟩ ⟨[], []⟩ ⟨"d", "s"⟩
        (some ⟨"d", "s", "LoadBalancer", none, [], [], []⟩) Registry.empty false =
      ⟨none, some RErr.statusWrite, UpdateService Registry.empty ⟨"d", "s"⟩ ⟨[]⟩, [], true⟩ ∧
    reconcile ⟨"", AddressSource.pod, "InternalIP", false, []⟩ ⟨[], []⟩ ⟨"d", "s"⟩
        (some ⟨"d", "s", "LoadBalancer", none, [], [], []⟩) Registry.empty true =
      ⟨none, none, UpdateService Registry.empty ⟨"d", "s"⟩ ⟨[]⟩, [], true⟩ :=
  c9_commit_survives_status_failure _ _ _ _ _ _ (by decide) (by decide) (by rfl)

/-! ## Registry port-ownership uniqueness (C2) -/

theorem lookupEntry_isSome_of_mem {κ β : Type} [DecidableEq κ] {m : List (κ × β)}
    {k : κ} {v : β} : (k, v) ∈ m → ∃ v', lookupEntry m k = some v' := by
  induction m with
  | nil => intro h; simp at h
  | cons hd t ih =>
    intro h
    rcases hd with ⟨k₀, v₀⟩
    by_cases hk : k₀ = k
    · exact ⟨v₀, by simp [lookupEntry, hk]⟩
    · rcases List.mem_cons.mp h with h' | h'
      · exact absurd (congrArg Prod.fst h').symm hk
      · simpa [lookupEntry, hk] using ih h'

theorem lookupEntry_map_const {κ β : Type} [DecidableEq κ] (owner : β) {p : κ} :
    ∀ l : List κ, p ∈ l → lookupEntry (l.map (fun q => (q, owner))) p = some owner := by
  intro l
  induction l with
  | nil => intro h; simp at h
  | cons a t ih =>
    intro h
    rcases List.mem_cons.mp h with rfl | h'
    · simp [lookupEntry]
    · by_cases ha : a = p
      · simp [lookupEntry, ha]
      · simp only [List.map_cons, lookupEntry, if_neg ha]
        exact ih h'

/-- No other owner holds a port of `d`, stated list-wise. -/
theorem no_conflict_entries {reg : Registry} {owner : ServiceKey} {d : ServiceData}
    (hu : PortUniq reg)
    (hg : (dataPorts d).any (fun p => Conflicts reg owner p) = false)
    {p : ServicePort} {k : ServiceKey} (hp : p ∈ dataPorts d)
    (hk : (p, k) ∈ reg.ownership) : k = owner := by
  by_contra hne
  obtain ⟨k', hk'⟩ := lookupEntry_isSome_of_mem hk
  have hk'mem := lookupEntry_mem hk'
  have : k' = k := hu p k' k hk'mem hk
  subst this
  have hcon : Conflicts reg owner p = true := by
    simp [Conflicts, hk', hne]
  have := (List.any_eq_false.mp hg) p hp
  exact this hcon

/-- C2: port-ownership uniqueness.  The empty registry is uniqueness-clean;
`UpdateService` and `RemoveService` preserve uniqueness; and immediately
after an accepted `UpdateService owner d` that claims port `P`,
`Conflicts owner P` is false while `Conflicts k P` is true for every other
key `k`. -/
theorem c2_port_ownership_unique :
    PortUniq Registry.empty ∧
    (∀ (reg : Registry) (owner : ServiceKey) (d : ServiceData),
      PortUniq reg → PortUniq (UpdateService reg owner d)) ∧
    (∀ (reg : Registry) (owner : ServiceKey),
      PortUniq reg → PortUniq (RemoveService reg owner)) ∧
    (∀ (reg : Registry) (owner : ServiceKey) (d : ServiceData) (P : ServicePort),
      PortUniq reg →
      (dataPorts d).any (fun p => Conflicts reg owner p) = false →
      P ∈ dataPorts d →
      Conflicts (UpdateService reg owner d) owner P = false ∧
      ∀ k : ServiceKey, k ≠ owner → Conflicts (UpdateService reg owner d) k P = true) := by
  have hlookup_none : ∀ (reg : Registry) (owner : ServiceKey) (d : ServiceData)
      (P : ServicePort), PortUniq reg →
      (dataPorts d).any (fun p => Conflicts reg owner p) = false →
      P ∈ dataPorts d →
      lookupEntry ((reg.ownership.filter (fun e => decide (e.2 ≠ owner)))
        ++ (dataPorts d).map (fun p => (p, owner))) P = some owner := by
    intro reg owner d P hu hg hP
    have hnot : P ∉ (reg.ownership.filter (fun e => decide (e.2 ≠ owner))).map Prod.fst := by
      intro hmem
      obtain ⟨⟨p', k'⟩, hmem', heq⟩ := List.mem_map.mp hmem
      cases heq
      have hin := List.mem_of_mem_filter hmem'
      have hpred := List.of_mem_filter hmem'
      have hkne : k' ≠ owner := by simpa using hpred
      exact hkne (no_conflict_entries hu hg hP hin)
    rw [lookupEntry_append_right _ hnot]
    exact lookupEntry_map_const owner _ hP
  refine ⟨?_, ?_, ?_, ?_⟩
  · intro p k₁ k₂ h₁ h₂
    simp [Registry.empty] at h₁
  · intro reg owner d hu
    rw [UpdateService]
    by_cases hg : (dataPorts d).any (fun p => Conflicts reg owner p) = true
    · rw [if_pos hg]; exact hu
    · rw [if_neg hg]
      have hg' : (dataPorts d).any (fun p => Conflicts reg owner p) = false :=
        Bool.eq_false_iff.mpr hg
      intro p k₁ k₂ h₁ h₂
      simp only [List.mem_append] at h₁ h₂
      rcases h₁ with h₁ | h₁ <;> rcases h₂ with h₂ | h₂
      · exact hu p k₁ k₂ (List.mem_of_mem_filter h₁) (List.mem_of_mem_filter h₂)
      · obtain ⟨q, hq, heq⟩ := List.mem_map.mp h₂
        cases heq
        exact absurd (no_conflict_entries hu hg' hq (List.mem_of_mem_filter h₁))
          (by simpa using List.of_mem_filter h₁)
      · obtain ⟨q, hq, heq⟩ := List.mem_map.mp h₁
        cases heq
        exact absurd (no_conflict_entries hu hg' hq (List.mem_of_mem_filter h₂)).symm
          (fun h => (by simpa using List.of_mem_filter h₂ : k₂ ≠ owner) h.symm)
      · obtain ⟨q₁, _, he₁⟩ := List.mem_map.mp h₁
        obtain ⟨q₂, _, he₂⟩ := List.mem_map.mp h₂
        cases he₁; cases he₂; rfl
  · intro reg owner hu
    rw [RemoveService]
    by_cases hpres : (lookupEntry reg.owners owner).isSome
    · rw [if_pos hpres]
      intro p k₁ k₂ h₁ h₂
      exact hu p k₁ k₂ (List.mem_of_mem_filter h₁) (List.mem_of_mem_filter h₂)
    · rw [if_neg hpres]; exact hu
  · intro reg owner d P hu hg hP
    have hup : UpdateService reg owner d =
        { owners := insertEntry reg.owners owner d
          ownership := reg.ownership.filter (fun e => decide (e.2 ≠ owner))
            ++ (dataPorts d).map (fun p => (p, owner))
          version := reg.version + 1 } := by
      rw [UpdateService, if_neg (by simp [hg])]
    have hlook := hlookup_none reg owner d P hu hg hP
    have hconf : ∀ k : ServiceKey, Conflicts (UpdateService reg owner d) k P =
        match lookupEntry ((reg.ownership.filter (fun e => decide (e.2 ≠ owner)))
          ++ (dataPorts d).map (fun p => (p, owner))) P with
        | some k' => decide (k' ≠ k)
        | none => false := by
      intro k; rw [hup]; rfl
    constructor
    · rw [hconf owner, hlook]; simp
    · intro k hk
      rw [hconf k, hlook]
      simpa using fun h => hk h.symm

theorem c2_port_ownership_unique_witness :
    Conflicts (UpdateService ⟨[], [(⟨81, Protocol.tcp⟩, ⟨"d", "other"⟩)], 5⟩ ⟨"d", "s"⟩
        ⟨[(⟨80, Protocol.tcp⟩, ⟨[], false, none, []⟩)]⟩) ⟨"d", "s"⟩ ⟨80, Protocol.tcp⟩ = false ∧
    ∀ k : ServiceKey, k ≠ ⟨"d", "s"⟩ →
      Conflicts (UpdateService ⟨[], [(⟨81, Protocol.tcp⟩, ⟨"d", "other"⟩)], 5⟩ ⟨"d", "s"⟩
        ⟨[(⟨80, Protocol.tcp⟩, ⟨[], false, none, []⟩)]⟩) k ⟨80, Protocol.tcp⟩ = true :=
  (c2_port_ownership_unique.2.2.2) ⟨[], [(⟨81, Protocol.tcp⟩, ⟨"d", "other"⟩)], 5⟩ ⟨"d", "s"⟩
    ⟨[(⟨80, Protocol.tcp⟩, ⟨[], false, none, []⟩)]⟩ ⟨80, Protocol.tcp⟩
    (by intro p k₁ k₂ h₁ h₂; simp at h₁ h₂; rw [h₁.2, h₂.2]) (by decide) (by decide)

/-! ## Every accepted port is claimed (C10) -/

theorem parseRanges_ok_mapM : ∀ {l : List String} {r : List Cidr},
    parseRanges l = .ok r → l.mapM parseCidr = some r := by
  intro l
  induction l with
  | nil =>
    intro r h
    simp only [parseRanges, Except.ok.injEq] at h
    subst h; rfl
  | cons a t ih =>
    intro r h
    cases hpa : parseCidr a with
    | none => rw [parseRanges, hpa] at h; simp at h
    | some p =>
      rw [parseRanges, hpa] at h
      cases hpt : parseRanges t with
      | error e => rw [hpt] at h; simp [Except.map] at h
      | ok r' =>
        rw [hpt] at h
        simp only [Except.map, Except.ok.injEq] at h
        subst h
        rw [List.mapM_cons, hpa]
        simp only [Bind.bind, Option.bind]
        rw [ih hpt]
        rfl

theorem buildServiceData_ok_parts {cfg : Config} {cluster : Cluster} {svc : Service}
    {ports : List ServicePort} {data : ServiceData}
    (h : buildServiceData cfg cluster svc ports = .ok data) :
    ∃ (I : Option Int) (R : List Cidr),
      I = (if lookupAnn svc idleTimeoutAnnKey = "" then none
        else parseDuration (lookupAnn svc idleTimeoutAnnKey)) ∧
      parseRanges svc.loadBalancerSourceRanges = .ok R ∧
      ports.foldlM
        (portStep cfg cluster svc (lookupAnn svc proxyProtocolAnnKey == "true") I R)
        [] = .ok data.ports := by
  rw [buildServiceData] at h
  have hIdle : ∃ I, idleStep svc = .ok I ∧
      I = (if lookupAnn svc idleTimeoutAnnKey = "" then none
        else parseDuration (lookupAnn svc idleTimeoutAnnKey)) := by
    cases hstep : idleStep svc with
    | error e => rw [hstep] at h; simp at h
    | ok I =>
      refine ⟨I, rfl, ?_⟩
      by_cases hann : lookupAnn svc idleTimeoutAnnKey = ""
      · rw [idleStep, if_neg (fun hne => hne hann)] at hstep
        rw [if_pos hann]
        exact (Except.ok.injEq .. ▸ hstep).symm
      · rw [idleStep, if_pos hann] at hstep
        rw [if_neg hann]
        cases hpd : parseDuration (lookupAnn svc idleTimeoutAnnKey) with
        | none => rw [hpd] at hstep; simp at hstep
        | some d =>
          rw [hpd] at hstep
          simp only [Except.ok.injEq] at hstep
          rw [hstep]
  obtain ⟨I, hstep, hIval⟩ := hIdle
  cases hpr : parseRanges svc.loadBalancerSourceRanges with
  | error e => rw [hstep, hpr] at h; simp at h
  | ok R =>
    have h2 : (match ports.foldlM (portStep cfg cluster svc
          (lookupAnn svc proxyProtocolAnnKey == "true") I R) [] with
        | Except.error e => (Except.error e : Except RErr ServiceData)
        | Except.ok portsData => Except.ok ⟨portsData⟩) = Except.ok data := by
      rw [hstep, hpr] at h
      exact h
    cases hfold : ports.foldlM (portStep cfg cluster svc
        (lookupAnn svc proxyProtocolAnnKey == "true") I R) [] with
    | error e => rw [hfold] at h2; simp at h2
    | ok pd =>
      rw [hfold] at h2
      simp only [Except.ok.injEq] at h2
      exact ⟨I, R, hIval, rfl, by rw [hfold, ← h2]⟩

theorem portStep_inv {cfg : Config} {cluster : Cluster} {svc : Service} {U : Bool}
    {I : Option Int} {R : List Cidr} {acc out : List (ServicePort × ServicePortData)}
    {port : ServicePort} (h : portStep cfg cluster svc U I R acc port = .ok out) :
    ∃ eps, buildEndpoints cfg cluster svc port = .ok eps ∧
      out = insertEntry acc port ⟨eps, U, I, R⟩ := by
  cases hbe : buildEndpoints cfg cluster svc port with
  | error e => rw [portStep, hbe] at h; simp at h
  | ok eps =>
    rw [portStep, hbe] at h
    simp only [Except.ok.injEq] at h
    exact ⟨eps, rfl, h.symm⟩

theorem portsFold_settings {cfg : Config} {cluster : Cluster} {svc : Service} {U : Bool}
    {I : Option Int} {R : List Cidr} {ports : List ServicePort}
    {out : List (ServicePort × ServicePortData)}
    (h : ports.foldlM (portStep cfg cluster svc U I R) [] = .ok out) :
    ∀ e ∈ out, e.2.useProxyProtocol = U ∧ e.2.idleTimeout = I ∧ e.2.allowedIPRanges = R := by
  intro e he
  have := foldlM_mem_provenance (portStep cfg cluster svc U I R)
    (fun _ e => e.2.useProxyProtocol = U ∧ e.2.idleTimeout = I ∧ e.2.allowedIPRanges = R)
    (fun s a s' hs e' he' => by
      obtain ⟨eps, _, hout⟩ := portStep_inv hs
      subst hout
      rcases mem_insertEntry he' with h' | h'
      · exact Or.inl h'
      · subst h'; exact Or.inr ⟨rfl, rfl, rfl⟩)
    ports [] out h e he
  rcases this with h' | ⟨_, _, h'⟩
  · simp at h'
  · exact h'

theorem portsFold_presence {cfg : Config} {cluster : Cluster} {svc : Service} {U : Bool}
    {I : Option Int} {R : List Cidr} :
    ∀ (ports : List ServicePort) (acc out : List (ServicePort × ServicePortData)),
      ports.foldlM (portStep cfg cluster svc U I R) acc = .ok out →
      ∀ p ∈ ports, ∃ pd, lookupEntry out p = some pd := by
  have hmono : ∀ (p : ServicePort) (ports : List ServicePort)
      (acc out : List (ServicePort × ServicePortData)),
      ports.foldlM (portStep cfg cluster svc U I R) acc = .ok out →
      (∃ pd, lookupEntry acc p = some pd) → ∃ pd, lookupEntry out p = some pd := by
    intro p ports acc out h hacc
    refine foldlM_ok_induct (portStep cfg cluster svc U I R)
      (fun s => ∃ pd, lookupEntry s p = some pd) ?_ ports acc out hacc h
    intro s a s' ⟨pd, hpd⟩ hstep
    obtain ⟨eps, _, hout⟩ := portStep_inv hstep
    subst hout
    by_cases hap : p = a
    · subst hap
      exact ⟨_, lookupEntry_insertEntry_self _ _ _⟩
    · exact ⟨pd, by rw [lookupEntry_insertEntry_ne _ _ hap, hpd]⟩
  intro ports
  induction ports with
  | nil => intro acc out _ p hp; simp at hp
  | cons a t ih =>
    intro acc out h p hp
    rw [List.foldlM_cons] at h
    cases hstep : portStep cfg cluster svc U I R acc a with
    | error e => rw [hstep] at h; simp [Bind.bind, Except.bind] at h
    | ok acc₁ =>
      rw [hstep] at h
      simp only [Bind.bind, Except.bind] at h
      rcases List.mem_cons.mp hp with rfl | hp'
      · obtain ⟨eps, _, hout⟩ := portStep_inv hstep
        exact hmono p t acc₁ out h
          ⟨_, by rw [hout]; exact lookupEntry_insertEntry_self _ _ _⟩
      · exact ih acc₁ out h p hp'

/-- C10: when `buildServiceData` succeeds, every accepted port of the
Service is a key of the resulting data — regardless of how many (possibly
zero) endpoints resolved for it — and its stored data carries the
Service-wide proxy-protocol, idle-timeout and allow-list settings. -/
theorem c10_all_ports_claimed (cfg : Config) (cluster : Cluster) (svc : Service)
    (data : ServiceData)
    (h : buildServiceData cfg cluster svc (getServicePorts svc) = .ok data) :
    ∀ p ∈ getServicePorts svc, ∃ pd, lookupEntry data.ports p = some pd ∧
      pd.useProxyProtocol = (lookupAnn svc proxyProtocolAnnKey == "true") ∧
      pd.idleTimeout = (if lookupAnn svc idleTimeoutAnnKey = "" then none
        else parseDuration (lookupAnn svc idleTimeoutAnnKey)) ∧
      svc.loadBalancerSourceRanges.mapM parseCidr = some pd.allowedIPRanges := by
  intro p hp
  obtain ⟨I, R, hI, hR, hfold⟩ := buildServiceData_ok_parts h
  obtain ⟨pd, hpd⟩ := portsFold_presence _ _ _ hfold p hp
  obtain ⟨hU, hIe, hRe⟩ := portsFold_settings hfold (p, pd) (lookupEntry_mem hpd)
  exact ⟨pd, hpd, hU, by rw [hIe, hI], by rw [hRe]; exact parseRanges_ok_mapM hR⟩

theorem c10_all_ports_claimed_witness :
    ∃ pd, lookupEntry
        (⟨[(⟨80, Protocol.tcp⟩,
            ⟨[], false, none, []⟩)]⟩ : ServiceData).ports ⟨80, Protocol.tcp⟩ = some pd ∧
      pd.useProxyProtocol = (lookupAnn ⟨"d", "s", "LoadBalancer", none,
        [⟨"", 80, K8sProto.tcp, IntOrString.int 80, 0⟩], [], []⟩ proxyProtocolAnnKey == "true") ∧
      pd.idleTimeout = (if lookupAnn ⟨"d", "s", "LoadBalancer", none,
          [⟨"", 80, K8sProto.tcp, IntOrString.int 80, 0⟩], [], []⟩ idleTimeoutAnnKey = ""
        then none
        else parseDuration (lookupAnn ⟨"d", "s", "LoadBalancer", none,
          [⟨"", 80, K8sProto.tcp, IntOrString.int 80, 0⟩], [], []⟩ idleTimeoutAnnKey)) ∧
      (⟨"d", "s", "LoadBalancer", none, [⟨"", 80, K8sProto.tcp, IntOrString.int 80, 0⟩],
        [], []⟩ : Service).loadBalancerSourceRanges.mapM parseCidr =
        some pd.allowedIPRanges :=
  c10_all_ports_claimed ⟨"", AddressSource.pod, "InternalIP", false, []⟩ ⟨[], []⟩
    ⟨"d", "s", "LoadBalancer", none, [⟨"", 80, K8sProto.tcp, IntOrString.int 80, 0⟩], [], []⟩
    ⟨[(⟨80, Protocol.tcp⟩, ⟨[], false, none, []⟩)]⟩ (by rfl) ⟨80, Protocol.tcp⟩ (by decide)

/-! ## Resolver map invariants -/

theorem processPodAddrs_nodup {pv : Nat} {rdy : Bool} :
    ∀ (addrs : List String) (m m' : IpsMap), (m.map Prod.fst).Nodup →
      processPodAddrs pv rdy m addrs = .ok m' → (m'.map Prod.fst).Nodup := by
  intro addrs
  induction addrs with
  | nil =>
    intro m m' hm h
    simp only [processPodAddrs, Except.ok.injEq] at h
    exact h ▸ hm
  | cons a t ih =>
    intro m m' hm h
    cases hp : parseAddr a with
    | none => rw [processPodAddrs, hp] at h; simp at h
    | some ip =>
      rw [processPodAddrs, hp] at h
      exact ih _ _ (nodup_keys_insertEntry hm) h

theorem processEndpointNode_nodup {cfg : Config} {cluster : Cluster}
    {sp : ServicePortSpec} {m : IpsMap} {ep : SliceEndpoint}
    (hm : (m.map Prod.fst).Nodup) :
    ((processEndpointNode cfg cluster sp m ep).map Prod.fst).Nodup := by
  rw [processEndpointNode]
  split
  · split
    · split
      · exact hm
      · exact nodup_keys_insertEntry hm
    · exact hm
  · exact hm

theorem processEndpoint_nodup {cfg : Config} {cluster : Cluster} {sp : ServicePortSpec}
    {pv : Int} {m m' : IpsMap} {ep : SliceEndpoint}
    (hm : (m.map Prod.fst).Nodup)
    (h : processEndpoint cfg cluster sp pv m ep = .ok m') :
    (m'.map Prod.fst).Nodup := by
  rw [processEndpoint] at h
  by_cases hmode : cfg.addressSource = AddressSource.node
  · rw [if_pos hmode] at h
    simp only [Except.ok.injEq] at h
    exact h ▸ processEndpointNode_nodup hm
  · rw [if_neg hmode] at h
    exact processPodAddrs_nodup _ _ _ hm h

theorem processSlice_nodup {cfg : Config} {cluster : Cluster} {sp : ServicePortSpec}
    {m m' : IpsMap} {es : EndpointSlice}
    (hm : (m.map Prod.fst).Nodup)
    (h : processSlice cfg cluster sp m es = .ok m') :
    (m'.map Prod.fst).Nodup := by
  rw [processSlice] at h
  split at h
  · simp only [Except.ok.injEq] at h
    exact h ▸ hm
  · split at h
    · simp only [Except.ok.injEq] at h
      exact h ▸ hm
    · split at h
      · simp only [Except.ok.injEq] at h
        exact h ▸ hm
      · exact foldlM_ok_induct _ (fun s => (s.map Prod.fst).Nodup)
          (fun s a s' hs hstep => processEndpoint_nodup hs hstep) _ _ _ hm h

theorem buildIpsMap_nodup {cfg : Config} {cluster : Cluster} {svc : Service}
    {sp : ServicePortSpec} {m : IpsMap}
    (h : buildIpsMap cfg cluster svc sp = .ok m) : (m.map Prod.fst).Nodup := by
  exact foldlM_ok_induct _ (fun s => (s.map Prod.fst).Nodup)
    (fun s a s' hs hstep => processSlice_nodup hs hstep) _ _ _ (by simp) h

/-! ## Sorting lemmas -/

theorem insertSorted_perm (x : AddrPort) :
    ∀ l : List AddrPort, (insertSorted x l).Perm (x :: l) := by
  intro l
  induction l with
  | nil => rfl
  | cons y t ih =>
    rw [insertSorted]
    by_cases hle : Addr.le x.addr y.addr = true
    · rw [if_pos hle]
    · rw [if_neg hle]
      exact (List.Perm.cons y ih).trans (List.Perm.swap x y t)

theorem sortIps_perm : ∀ l : List AddrPort, (sortIps l).Perm l := by
  intro l
  induction l with
  | nil => rfl
  | cons x t ih =>
    rw [show sortIps (x :: t) = insertSorted x (sortIps t) from rfl]
    exact (insertSorted_perm x (sortIps t)).trans (List.Perm.cons x ih)

theorem insertSorted_sorted (x : AddrPort) :
    ∀ l : List AddrPort,
      l.Pairwise (fun a b => Addr.le a.addr b.addr = true) →
      (insertSorted x l).Pairwise (fun a b => Addr.le a.addr b.addr = true) := by
  intro l
  induction l with
  | nil => intro _; simp [insertSorted]
  | cons y t ih =>
    intro h
    rw [List.pairwise_cons] at h
    rw [insertSorted]
    by_cases hle : Addr.le x.addr y.addr = true
    · rw [if_pos hle]
      refine List.Pairwise.cons ?_ (List.Pairwise.cons h.1 h.2)
      intro z hz
      rcases List.mem_cons.mp hz with rfl | hz'
      · exact hle
      · exact addrLe_trans _ _ _ hle (h.1 z hz')
    · rw [if_neg hle]
      have hyx : Addr.le y.addr x.addr = true := by
        rcases Bool.or_eq_true_iff.mp (addrLe_total x.addr y.addr) with h' | h'
        · exact absurd h' hle
        · exact h'
      refine List.Pairwise.cons ?_ (ih h.2)
      intro z hz
      rcases List.mem_cons.mp ((insertSorted_perm x t).mem_iff.mp hz) with rfl | hz'
      · exact hyx
      · exact h.1 z hz'

theorem sortIps_sorted :
    ∀ l : List AddrPort,
      (sortIps l).Pairwise (fun a b => Addr.le a.addr b.addr = true) := by
  intro l
  induction l with
  | nil => simp [sortIps]
  | cons x t ih =>
    rw [show sortIps (x :: t) = insertSorted x (sortIps t) from rfl]
    exact insertSorted_sorted x (sortIps t) ih

/-! ## Node-mode provenance (C6) -/

theorem processEndpointNode_mem {cfg : Config} {cluster : Cluster}
    {sp : ServicePortSpec} {m : IpsMap} {ep : SliceEndpoint} {e : AddrPort × Bool}
    (h : e ∈ processEndpointNode cfg cluster sp m ep) :
    e ∈ m ∨ NodeProv cfg cluster sp ep e := by
  rw [processEndpointNode] at h
  split at h
  next n heq =>
    split at h
    next hnp =>
      split at h
      next er hga => exact Or.inl h
      next ip hga =>
        rcases mem_insertEntry h with h' | h'
        · exact Or.inl h'
        · exact Or.inr ⟨n, heq, hnp, ip, hga, by rw [h']⟩
    next hnp => exact Or.inl h
  next heq => exact Or.inl h

theorem processSlice_node_mem {cfg : Config} {cluster : Cluster} {sp : ServicePortSpec}
    {m m' : IpsMap} {es : EndpointSlice} {e : AddrPort × Bool}
    (hmode : cfg.addressSource = AddressSource.node)
    (h : processSlice cfg cluster sp m es = .ok m') (he : e ∈ m') :
    e ∈ m ∨ ∃ ep ∈ es.endpoints, NodeProv cfg cluster sp ep e := by
  rw [processSlice] at h
  split at h
  · simp only [Except.ok.injEq] at h
    exact Or.inl (h ▸ he)
  · split at h
    · simp only [Except.ok.injEq] at h
      exact Or.inl (h ▸ he)
    · split at h
      · simp only [Except.ok.injEq] at h
        exact Or.inl (h ▸ he)
      · refine foldlM_mem_provenance _ (NodeProv cfg cluster sp) ?_ _ _ _ h e he
        intro s a s' hstep e' he'
        rw [processEndpoint, if_pos hmode] at hstep
        simp only [Except.ok.injEq] at hstep
        exact processEndpointNode_mem (hstep ▸ he')

theorem buildIpsMap_node_mem {cfg : Config} {cluster : Cluster} {svc : Service}
    {sp : ServicePortSpec} {m : IpsMap} {e : AddrPort × Bool}
    (hmode : cfg.addressSource = AddressSource.node)
    (h : buildIpsMap cfg cluster svc sp = .ok m) (he : e ∈ m) :
    ∃ es ∈ relevantSlices cluster svc, ∃ ep ∈ es.endpoints,
      NodeProv cfg cluster sp ep e := by
  have := foldlM_mem_provenance (processSlice cfg cluster sp)
    (fun es e => ∃ ep ∈ es.endpoints, NodeProv cfg cluster sp ep e)
    (fun s a s' hstep e' he' => processSlice_node_mem hmode hstep he')
    (relevantSlices cluster svc) [] m h e he
  rcases this with h' | h'
  · simp at h'
  · exact h'

theorem except_map_ok {ε α β : Type} {f : α → β} {x : Except ε α} {y : β}
    (h : x.map f = .ok y) : ∃ a, x = .ok a ∧ y = f a := by
  cases x with
  | error e => simp [Except.map] at h
  | ok a =>
    simp only [Except.map, Except.ok.injEq] at h
    exact ⟨a, rfl, h.symm⟩

theorem mem_finishEndpoints {proto : Protocol} {entries : List (AddrPort × Bool)}
    {e : ServiceEndpoint} (h : e ∈ finishEndpoints proto entries) :
    e.protocol = proto ∧ (e.addrPort, true) ∈ entries := by
  rw [finishEndpoints] at h
  obtain ⟨k, hk, he⟩ := List.mem_map.mp h
  have hk' := (sortIps_perm _).mem_iff.mp hk
  obtain ⟨p, hp, hpk⟩ := List.mem_map.mp hk'
  obtain ⟨hpm, hpr⟩ := List.mem_filter.mp hp
  subst he
  refine ⟨rfl, ?_⟩
  have : p = (k, true) := by
    rcases p with ⟨p1, p2⟩
    simp only at hpk
    subst hpk
    simp only at hpr
    rw [hpr]
  exact this ▸ hpm

/-- C6: in Node mode, every resolved endpoint pairs a successfully resolved
node address with the Service's allocated node-port (as a 16-bit value),
and an endpoint only arises from a slice endpoint that references a node
name while the Service port carries a non-zero node-port. -/
theorem c6_node_mode_endpoints (cfg : Config) (cluster : Cluster) (svc : Service)
    (port : ServicePort) (sp : ServicePortSpec) (l : List ServiceEndpoint)
    (hmode : cfg.addressSource = AddressSource.node)
    (hsp : findSvcPort svc port = some sp)
    (hok : buildEndpoints cfg cluster svc port = .ok l) :
    ∀ e ∈ l, e.protocol = port.protocol ∧ sp.nodePort ≠ 0 ∧
      e.addrPort.port = toPort16 sp.nodePort ∧
      ∃ es ∈ relevantSlices cluster svc, ∃ ep ∈ es.endpoints, ∃ n,
        ep.nodeName = some n ∧ getNodeAddress cfg cluster n = .ok e.addrPort.addr := by
  intro e he
  rw [buildEndpoints, hsp] at hok
  obtain ⟨m, hm, hl⟩ := except_map_ok hok
  subst hl
  obtain ⟨hproto, hmem⟩ := mem_finishEndpoints he
  obtain ⟨es, hes, ep, hep, n, hnn, hnp, ip, hga, hkey⟩ :=
    buildIpsMap_node_mem hmode hm hmem
  have hkey' : e.addrPort = ⟨ip, toPort16 sp.nodePort⟩ := hkey
  refine ⟨hproto, hnp, ?_, es, hes, ep, hep, n, hnn, ?_⟩
  · rw [hkey']
  · rw [hkey']
    exact hga

theorem c6_node_mode_endpoints_witness :
    (⟨⟨⟨false, 167772165⟩, 30080⟩, Protocol.tcp⟩ : ServiceEndpoint).protocol =
      (⟨80, Protocol.tcp⟩ : ServicePort).protocol ∧
    (⟨"web", 80, K8sProto.tcp, IntOrString.int 8080, 30080⟩ : ServicePortSpec).nodePort ≠ 0 ∧
    (⟨⟨⟨false, 167772165⟩, 30080⟩, Protocol.tcp⟩ : ServiceEndpoint).addrPort.port =
      toPort16 (⟨"web", 80, K8sProto.tcp, IntOrString.int 8080, 30080⟩ :
        ServicePortSpec).nodePort ∧
    ∃ es ∈ relevantSlices
        ⟨[⟨"d", "web", AddressType.ipv4, [⟨some "web", some 8080⟩],
          [⟨["10.244.0.7"], some "n1", some true⟩]⟩],
         [⟨"n1", [⟨"InternalIP", "10.0.0.5"⟩]⟩]⟩
        ⟨"d", "web", "LoadBalancer", none,
          [⟨"web", 80, K8sProto.tcp, IntOrString.int 8080, 30080⟩], [], []⟩,
      ∃ ep ∈ es.endpoints, ∃ n, ep.nodeName = some n ∧
        getNodeAddress ⟨"", AddressSource.node, "InternalIP", false, []⟩
          ⟨[⟨"d", "web", AddressType.ipv4, [⟨some "web", some 8080⟩],
            [⟨["10.244.0.7"], some "n1", some true⟩]⟩],
           [⟨"n1", [⟨"InternalIP", "10.0.0.5"⟩]⟩]⟩ n =
          .ok (⟨⟨⟨false, 167772165⟩, 30080⟩, Protocol.tcp⟩ :
            ServiceEndpoint).addrPort.addr :=
  c6_node_mode_endpoints ⟨"", AddressSource.node, "InternalIP", false, []⟩
    ⟨[⟨"d", "web", AddressType.ipv4, [⟨some "web", some 8080⟩],
      [⟨["10.244.0.7"], some "n1", some true⟩]⟩],
     [⟨"n1", [⟨"InternalIP", "10.0.0.5"⟩]⟩]⟩
    ⟨"d", "web", "LoadBalancer", none,
      [⟨"web", 80, K8sProto.tcp, IntOrString.int 8080, 30080⟩], [], []⟩
    ⟨80, Protocol.tcp⟩ ⟨"web", 80, K8sProto.tcp, IntOrString.int 8080, 30080⟩
    [⟨⟨⟨false, 167772165⟩, 30080⟩, Protocol.tcp⟩] rfl (by rfl) (by rfl)
    ⟨⟨⟨false, 167772165⟩, 30080⟩, Protocol.tcp⟩ (by decide)

/-! ## Resolver output shape (C4) -/

theorem finish_map_addrPort (proto : Protocol) (entries : List (AddrPort × Bool)) :
    (finishEndpoints proto entries).map (fun e => e.addrPort) =
      sortIps ((entries.filter (fun e => e.2)).map (fun e => e.1)) := by
  rw [finishEndpoints, List.map_map]
  exact List.map_id _

/-- C4: for every input and every enumeration `σ` of the resolver's
deduplication map, the produced list has pairwise-distinct
(address, port) pairs, contains only entries whose final readiness in the
map is `true`, is sorted ascending by address, and is empty exactly when
no ready entry exists — an `ok []` result, not an error.  The run the code
performs is `finishEndpoints` applied to one such enumeration. -/
theorem c4_resolver_output (cfg : Config) (cluster : Cluster) (svc : Service)
    (port : ServicePort) (sp : ServicePortSpec) (m σ : IpsMap)
    (hsp : findSvcPort svc port = some sp)
    (hok : buildIpsMap cfg cluster svc sp = .ok m)
    (hσ : σ.Perm m) :
    buildEndpoints cfg cluster svc port = .ok (finishEndpoints port.protocol m) ∧
    ((finishEndpoints port.protocol σ).map (fun e => e.addrPort)).Nodup ∧
    (∀ e ∈ finishEndpoints port.protocol σ, lookupEntry m e.addrPort = some true) ∧
    (finishEndpoints port.protocol σ).Pairwise
      (fun a b => Addr.le a.addrPort.addr b.addrPort.addr = true) ∧
    (m.filter (fun e => e.2) = [] → finishEndpoints port.protocol σ = []) := by
  have hmk : (m.map Prod.fst).Nodup := buildIpsMap_nodup hok
  refine ⟨?_, ?_, ?_, ?_, ?_⟩
  · rw [buildEndpoints, hsp]
    show Except.map (finishEndpoints port.protocol) (buildIpsMap cfg cluster svc sp) =
      Except.ok (finishEndpoints port.protocol m)
    rw [hok]
    rfl
  · rw [finish_map_addrPort]
    have hσk : (σ.map Prod.fst).Nodup := ((hσ.map Prod.fst).nodup_iff).mpr hmk
    have hsub : ((σ.filter (fun e => e.2)).map (fun e => e.1)).Sublist
        (σ.map Prod.fst) := List.Sublist.map _ (List.filter_sublist σ)
    exact ((sortIps_perm _).nodup_iff).mpr (hsub.nodup hσk)
  · intro e he
    obtain ⟨_, hmem⟩ := mem_finishEndpoints he
    exact mem_lookupEntry hmk (hσ.mem_iff.mp hmem)
  · rw [finishEndpoints]
    exact List.pairwise_map.mpr (sortIps_sorted _)
  · intro h0
    have : σ.filter (fun e => e.2) = [] :=
      List.Perm.eq_nil ((hσ.filter _).trans (h0 ▸ List.Perm.refl _))
    rw [finishEndpoints, this]
    rfl

theorem c4_resolver_output_witness :
    buildEndpoints ⟨"", AddressSource.pod, "InternalIP", false, []⟩
        ⟨[⟨"d", "web", AddressType.ipv4, [⟨none, some 8080⟩],
          [⟨["10.0.0.2", "10.0.0.1", "10.0.0.2"], none, some true⟩,
           ⟨["10.0.0.9"], none, some false⟩]⟩], []⟩
        ⟨"d", "web", "LoadBalancer", none,
          [⟨"", 80, K8sProto.tcp, IntOrString.int 8080, 0⟩], [], []⟩
        ⟨80, Protocol.tcp⟩ =
      .ok (finishEndpoints Protocol.tcp
        [(⟨⟨false, 167772162⟩, 8080⟩, true), (⟨⟨false, 167772161⟩, 8080⟩, true),
         (⟨⟨false, 167772169⟩, 8080⟩, false)]) ∧
    ((finishEndpoints Protocol.tcp
        [(⟨⟨false, 167772162⟩, 8080⟩, true), (⟨⟨false, 167772161⟩, 8080⟩, true),
         (⟨⟨false, 167772169⟩, 8080⟩, false)]).map (fun e => e.addrPort)).Nodup ∧
    (∀ e ∈ finishEndpoints Protocol.tcp
        [(⟨⟨false, 167772162⟩, 8080⟩, true), (⟨⟨false, 167772161⟩, 8080⟩, true),
         (⟨⟨false, 167772169⟩, 8080⟩, false)],
      lookupEntry [(⟨⟨false, 167772162⟩, 8080⟩, true), (⟨⟨false, 167772161⟩, 8080⟩, true),
         (⟨⟨false, 167772169⟩, 8080⟩, false)] e.addrPort = some true) ∧
    (finishEndpoints Protocol.tcp
        [(⟨⟨false, 167772162⟩, 8080⟩, true), (⟨⟨false, 167772161⟩, 8080⟩, true),
         (⟨⟨false, 167772169⟩, 8080⟩, false)]).Pairwise
      (fun a b => Addr.le a.addrPort.addr b.addrPort.addr = true) ∧
    (([(⟨⟨false, 167772162⟩, 8080⟩, true), (⟨⟨false, 167772161⟩, 8080⟩, true),
        (⟨⟨false, 167772169⟩, 8080⟩, false)] : IpsMap).filter (fun e => e.2) = [] →
      finishEndpoints Protocol.tcp
        [(⟨⟨false, 167772162⟩, 8080⟩, true), (⟨⟨false, 167772161⟩, 8080⟩, true),
         (⟨⟨false, 167772169⟩, 8080⟩, false)] = []) :=
  c4_resolver_output ⟨"", AddressSource.pod, "InternalIP", false, []⟩
    ⟨[⟨"d", "web", AddressType.ipv4, [⟨none, some 8080⟩],
      [⟨["10.0.0.2", "10.0.0.1", "10.0.0.2"], none, some true⟩,
       ⟨["10.0.0.9"], none, some false⟩]⟩], []⟩
    ⟨"d", "web", "LoadBalancer", none,
      [⟨"", 80, K8sProto.tcp, IntOrString.int 8080, 0⟩], [], []⟩
    ⟨80, Protocol.tcp⟩ ⟨"", 80, K8sProto.tcp, IntOrString.int 8080, 0⟩
    [(⟨⟨false, 167772162⟩, 8080⟩, true), (⟨⟨false, 167772161⟩, 8080⟩, true),
     (⟨⟨false, 167772169⟩, 8080⟩, false)]
    [(⟨⟨false, 167772162⟩, 8080⟩, true), (⟨⟨false, 167772161⟩, 8080⟩, true),
     (⟨⟨false, 167772169⟩, 8080⟩, false)]
    (by rfl) (by rfl) (List.Perm.refl _)

/-! ## Failure-policy asymmetry (C5) -/

theorem processSlice_eq_found {cfg : Config} {cluster : Cluster} {sp : ServicePortSpec}
    {m : IpsMap} {es : EndpointSlice} {epp : EndpointPort} {pv : Int}
    (hfam : sliceFamilyOk cfg es = true)
    (hfind : findPortEntry sp es = some epp)
    (hpv : resolvePortVal sp epp = some pv) :
    processSlice cfg cluster sp m es =
      es.endpoints.foldlM (processEndpoint cfg cluster sp pv) m := by
  rw [processSlice, if_neg (by rw [hfam]; intro h; exact nomatch h), hfind]
  show (match resolvePortVal sp epp with
    | none => Except.ok m
    | some pv => List.foldlM (processEndpoint cfg cluster sp pv) m es.endpoints) =
    List.foldlM (processEndpoint cfg cluster sp pv) m es.endpoints
  rw [hpv]

theorem processSlice_eq_skip_family {cfg : Config} {cluster : Cluster}
    {sp : ServicePortSpec} {m : IpsMap} {es : EndpointSlice}
    (hfam : sliceFamilyOk cfg es = false) :
    processSlice cfg cluster sp m es = .ok m := by
  rw [processSlice, if_pos (by rw [hfam]; rfl)]

theorem processSlice_eq_skip_noentry {cfg : Config} {cluster : Cluster}
    {sp : ServicePortSpec} {m : IpsMap} {es : EndpointSlice}
    (hfam : sliceFamilyOk cfg es = true)
    (hfind : findPortEntry sp es = none) :
    processSlice cfg cluster sp m es = .ok m := by
  rw [processSlice, if_neg (by rw [hfam]; intro h; exact nomatch h), hfind]

theorem processSlice_eq_skip_nopv {cfg : Config} {cluster : Cluster}
    {sp : ServicePortSpec} {m : IpsMap} {es : EndpointSlice} {epp : EndpointPort}
    (hfam : sliceFamilyOk cfg es = true)
    (hfind : findPortEntry sp es = some epp)
    (hpv : resolvePortVal sp epp = none) :
    processSlice cfg cluster sp m es = .ok m := by
  rw [processSlice, if_neg (by rw [hfam]; intro h; exact nomatch h), hfind]
  show (match resolvePortVal sp epp with
    | none => Except.ok m
    | some pv => List.foldlM (processEndpoint cfg cluster sp pv) m es.endpoints) =
    Except.ok m
  rw [hpv]

theorem processPodAddrs_error {pv : Nat} {rdy : Bool} {a : String}
    (hbad : parseAddr a = none) :
    ∀ (addrs : List String) (m : IpsMap), a ∈ addrs →
      ∃ e, processPodAddrs pv rdy m addrs = .error e := by
  intro addrs
  induction addrs with
  | nil => intro m h; simp at h
  | cons a' t ih =>
    intro m hmem
    rcases List.mem_cons.mp hmem with rfl | hmem'
    · exact ⟨.addrParse a, by rw [processPodAddrs, hbad]⟩
    · cases hp : parseAddr a' with
      | none => exact ⟨.addrParse a', by rw [processPodAddrs, hp]⟩
      | some ip =>
        obtain ⟨e, he⟩ := ih _ hmem'
        exact ⟨e, by rw [processPodAddrs, hp]; exact he⟩

theorem processSlice_pod_error {cfg : Config} {cluster : Cluster} {sp : ServicePortSpec}
    {es : EndpointSlice} {epp : EndpointPort} {pv : Int} {ep : SliceEndpoint} {a : String}
    (hmode : cfg.addressSource = AddressSource.pod)
    (hfam : sliceFamilyOk cfg es = true)
    (hfind : findPortEntry sp es = some epp)
    (hpv : resolvePortVal sp epp = some pv)
    (hep : ep ∈ es.endpoints) (ha : a ∈ ep.addresses) (hbad : parseAddr a = none) :
    ∀ m : IpsMap, ∃ e, processSlice cfg cluster sp m es = .error e := by
  intro m
  have hepstep : ∀ s : IpsMap, ∃ e, processEndpoint cfg cluster sp pv s ep = .error e := by
    intro s
    rw [processEndpoint, if_neg (by rw [hmode]; intro h; exact nomatch h)]
    exact processPodAddrs_error hbad ep.addresses s ha
  obtain ⟨e, he⟩ := foldlM_error_of_mem _ hepstep es.endpoints hep m
  refine ⟨e, ?_⟩
  rw [processSlice_eq_found hfam hfind hpv]
  exact he

theorem buildEndpoints_pod_error {cfg : Config} {cluster : Cluster} {svc : Service}
    {port : ServicePort} {sp : ServicePortSpec} {es : EndpointSlice}
    {epp : EndpointPort} {pv : Int} {ep : SliceEndpoint} {a : String}
    (hmode : cfg.addressSource = AddressSource.pod)
    (hsp : findSvcPort svc port = some sp)
    (hes : es ∈ relevantSlices cluster svc)
    (hfam : sliceFamilyOk cfg es = true)
    (hfind : findPortEntry sp es = some epp)
    (hpv : resolvePortVal sp epp = some pv)
    (hep : ep ∈ es.endpoints) (ha : a ∈ ep.addresses) (hbad : parseAddr a = none) :
    ∃ e, buildEndpoints cfg cluster svc port = .error e := by
  obtain ⟨e, he⟩ := foldlM_error_of_mem (processSlice cfg cluster sp)
    (processSlice_pod_error hmode hfam hfind hpv hep ha hbad)
    (relevantSlices cluster svc) hes []
  refine ⟨e, ?_⟩
  rw [buildEndpoints, hsp]
  show Except.map (finishEndpoints port.protocol) (buildIpsMap cfg cluster svc sp) =
    Except.error e
  rw [buildIpsMap, he]
  rfl

theorem processEndpoint_node_eq {cfg : Config} {cluster : Cluster}
    {sp : ServicePortSpec} {pv : Int} {m : IpsMap} {ep : SliceEndpoint}
    (hmode : cfg.addressSource = AddressSource.node) :
    processEndpoint cfg cluster sp pv m ep =
      .ok (processEndpointNode cfg cluster sp m ep) := by
  rw [processEndpoint, if_pos hmode]

theorem buildEndpoints_node_total {cfg : Config} {cluster : Cluster} {svc : Service}
    {port : ServicePort} {sp : ServicePortSpec}
    (hmode : cfg.addressSource = AddressSource.node)
    (hsp : findSvcPort svc port = some sp) :
    ∃ l, buildEndpoints cfg cluster svc port = .ok l := by
  have hslice : ∀ (m : IpsMap) (es : EndpointSlice),
      ∃ m', processSlice cfg cluster sp m es = .ok m' := by
    intro m es
    cases hfam : sliceFamilyOk cfg es with
    | false => exact ⟨m, processSlice_eq_skip_family hfam⟩
    | true =>
      cases hfind : findPortEntry sp es with
      | none => exact ⟨m, processSlice_eq_skip_noentry hfam hfind⟩
      | some epp =>
        cases hpv : resolvePortVal sp epp with
        | none => exact ⟨m, processSlice_eq_skip_nopv hfam hfind hpv⟩
        | some pv =>
          obtain ⟨m', hm'⟩ := foldlM_ok_total _ (fun s ep =>
            ⟨processEndpointNode cfg cluster sp s ep, processEndpoint_node_eq hmode⟩)
            es.endpoints m
          exact ⟨m', by rw [processSlice_eq_found hfam hfind hpv]; exact hm'⟩
  obtain ⟨m, hm⟩ := foldlM_ok_total _ (fun s es => hslice s es) (relevantSlices cluster svc) []
  refine ⟨finishEndpoints port.protocol m, ?_⟩
  rw [buildEndpoints, hsp]
  show Except.map (finishEndpoints port.protocol) (buildIpsMap cfg cluster svc sp) =
    Except.ok (finishEndpoints port.protocol m)
  rw [buildIpsMap, hm]
  rfl

/-- C5: failure-policy asymmetry.  In Pod mode a malformed endpoint address
in any processed slice makes the whole resolution return an error; in Node
mode resolution always succeeds (given the declared port exists), and an
endpoint whose node address fails to resolve is dropped leaving the map —
and therefore the other endpoints — untouched. -/
theorem c5_failure_policy :
    (∀ (cfg : Config) (cluster : Cluster) (svc : Service) (port : ServicePort)
        (sp : ServicePortSpec) (es : EndpointSlice) (epp : EndpointPort) (pv : Int)
        (ep : SliceEndpoint) (a : String),
      cfg.addressSource = AddressSource.pod →
      findSvcPort svc port = some sp →
      es ∈ relevantSlices cluster svc →
      sliceFamilyOk cfg es = true →
      findPortEntry sp es = some epp →
      resolvePortVal sp epp = some pv →
      ep ∈ es.endpoints → a ∈ ep.addresses → parseAddr a = none →
      ∃ e, buildEndpoints cfg cluster svc port = .error e) ∧
    (∀ (cfg : Config) (cluster : Cluster) (svc : Service) (port : ServicePort)
        (sp : ServicePortSpec),
      cfg.addressSource = AddressSource.node →
      findSvcPort svc port = some sp →
      ∃ l, buildEndpoints cfg cluster svc port = .ok l) ∧
    (∀ (cfg : Config) (cluster : Cluster) (sp : ServicePortSpec) (m : IpsMap)
        (ep : SliceEndpoint) (n : String) (er : RErr),
      ep.nodeName = some n →
      getNodeAddress cfg cluster n = .error er →
      processEndpointNode cfg cluster sp m ep = m) :=
  ⟨fun _ _ _ _ _ _ _ _ _ _ hmode hsp hes hfam hfind hpv hep ha hbad =>
      buildEndpoints_pod_error hmode hsp hes hfam hfind hpv hep ha hbad,
   fun _ _ _ _ _ hmode hsp => buildEndpoints_node_total hmode hsp,
   fun cfg cluster sp m ep n er hnn hga => by
     rw [processEndpointNode, hnn]
     show (if sp.nodePort ≠ 0 then
         match getNodeAddress cfg cluster n with
         | .error _ => m
         | .ok ip => insertEntry m ⟨ip, toPort16 sp.nodePort⟩ (epReady ep)
       else m) = m
     by_cases hnp : sp.nodePort ≠ 0
     · rw [if_pos hnp, hga]
     · rw [if_neg hnp]⟩

theorem c5_failure_policy_witness :
    (∃ e, buildEndpoints ⟨"", AddressSource.pod, "InternalIP", false, []⟩
        ⟨[⟨"d", "web", AddressType.ipv4, [⟨none, some 8080⟩],
          [⟨["bad-addr"], none, some true⟩]⟩], []⟩
        ⟨"d", "web", "LoadBalancer", none,
          [⟨"", 80, K8sProto.tcp, IntOrString.int 8080, 0⟩], [], []⟩
        ⟨80, Protocol.tcp⟩ = .error e) ∧
    (∃ l, buildEndpoints ⟨"", AddressSource.node, "InternalIP", false, []⟩
        ⟨[⟨"d", "web", AddressType.ipv4, [⟨none, some 8080⟩],
          [⟨["10.244.0.7"], some "missing-node", some true⟩]⟩], []⟩
        ⟨"d", "web", "LoadBalancer", none,
          [⟨"", 80, K8sProto.tcp, IntOrString.int 8080, 30080⟩], [], []⟩
        ⟨80, Protocol.tcp⟩ = .ok l) ∧
    processEndpointNode ⟨"", AddressSource.node, "InternalIP", false, []⟩ ⟨[], []⟩
      ⟨"", 80, K8sProto.tcp, IntOrString.int 8080, 30080⟩
      [(⟨⟨false, 5⟩, 30080⟩, true)] ⟨["10.244.0.7"], some "missing-node", some true⟩ =
      [(⟨⟨false, 5⟩, 30080⟩, true)] :=
  ⟨c5_failure_policy.1 ⟨"", AddressSource.pod, "InternalIP", false, []⟩
      ⟨[⟨"d", "web", AddressType.ipv4, [⟨none, some 8080⟩],
        [⟨["bad-addr"], none, some true⟩]⟩], []⟩
      ⟨"d", "web", "LoadBalancer", none,
        [⟨"", 80, K8sProto.tcp, IntOrString.int 8080, 0⟩], [], []⟩
      ⟨80, Protocol.tcp⟩ ⟨"", 80, K8sProto.tcp, IntOrString.int 8080, 0⟩
      ⟨"d", "web", AddressType.ipv4, [⟨none, some 8080⟩],
        [⟨["bad-addr"], none, some true⟩]⟩ ⟨none, some 8080⟩ 8080
      ⟨["bad-addr"], none, some true⟩ "bad-addr"
      rfl (by rfl) (by decide) (by rfl) (by rfl) (by rfl) (by decide) (by decide) (by rfl),
   c5_failure_policy.2.1 ⟨"", AddressSource.node, "InternalIP", false, []⟩
      ⟨[⟨"d", "web", AddressType.ipv4, [⟨none, some 8080⟩],
        [⟨["10.244.0.7"], some "missing-node", some true⟩]⟩], []⟩
      ⟨"d", "web", "LoadBalancer", none,
        [⟨"", 80, K8sProto.tcp, IntOrString.int 8080, 30080⟩], [], []⟩
      ⟨80, Protocol.tcp⟩ ⟨"", 80, K8sProto.tcp, IntOrString.int 8080, 30080⟩
      rfl (by rfl),
   c5_failure_policy.2.2 ⟨"", AddressSource.node, "InternalIP", false, []⟩ ⟨[], []⟩
      ⟨"", 80, K8sProto.tcp, IntOrString.int 8080, 30080⟩
      [(⟨⟨false, 5⟩, 30080⟩, true)] ⟨["10.244.0.7"], some "missing-node", some true⟩
      "missing-node" RErr.apiNotFound (by rfl) (by rfl)⟩

/-! ## Run-to-run determinism (C8) -/

/-- C8 counterexample: on this input the resolver's dedup map is
`cexEntries`; enumerating it in insertion order and in reverse order —
both permutations of the same map, as Go's randomized map iteration
produces — yields two DIFFERENT ordered result lists.  The claim that any
two runs on the same input produce identical ordered lists is false. -/
theorem c8_counterexample :
    buildIpsMap cexCfg cexCluster cexSvc cexSp = .ok cexEntries ∧
    cexEntries.reverse.Perm cexEntries ∧
    finishEndpoints Protocol.tcp cexEntries.reverse ≠
      finishEndpoints Protocol.tcp cexEntries :=
  ⟨by rfl, List.reverse_perm cexEntries, by decide⟩

/-- C8 as amended: every run (enumeration of the dedup map) yields a list
sorted ascending by address, any two runs yield permutations of each
other, and whenever the produced entries' addresses are pairwise distinct
the two runs are identical — only the relative order of entries sharing
an address is run-dependent. -/
theorem c8_amended_determinism (cfg : Config) (cluster : Cluster) (svc : Service)
    (port : ServicePort) (sp : ServicePortSpec) (m σ₁ σ₂ : IpsMap)
    (hsp : findSvcPort svc port = some sp)
    (hok : buildIpsMap cfg cluster svc sp = .ok m)
    (h1 : σ₁.Perm m) (h2 : σ₂.Perm m) :
    buildEndpoints cfg cluster svc port = .ok (finishEndpoints port.protocol m) ∧
    (finishEndpoints port.protocol σ₁).Perm (finishEndpoints port.protocol σ₂) ∧
    (finishEndpoints port.protocol σ₁).Pairwise
      (fun a b => Addr.le a.addrPort.addr b.addrPort.addr = true) ∧
    (((finishEndpoints port.protocol σ₁).map (fun e => e.addrPort.addr)).Nodup →
      finishEndpoints port.protocol σ₁ = finishEndpoints port.protocol σ₂) := by
  have hperm : (finishEndpoints port.protocol σ₁).Perm
      (finishEndpoints port.protocol σ₂) := by
    have hσ : σ₁.Perm σ₂ := h1.trans h2.symm
    rw [finishEndpoints, finishEndpoints]
    refine List.Perm.map _ ?_
    exact (sortIps_perm _).trans (((hσ.filter _).map _).trans (sortIps_perm _).symm)
  have hs1 : (finishEndpoints port.protocol σ₁).Pairwise
      (fun a b => Addr.le a.addrPort.addr b.addrPort.addr = true) := by
    rw [finishEndpoints]
    exact List.pairwise_map.mpr (sortIps_sorted _)
  have hs2 : (finishEndpoints port.protocol σ₂).Pairwise
      (fun a b => Addr.le a.addrPort.addr b.addrPort.addr = true) := by
    rw [finishEndpoints]
    exact List.pairwise_map.mpr (sortIps_sorted _)
  refine ⟨?_, hperm, hs1, ?_⟩
  · rw [buildEndpoints, hsp]
    show Except.map (finishEndpoints port.protocol) (buildIpsMap cfg cluster svc sp) =
      Except.ok (finishEndpoints port.protocol m)
    rw [hok]
    rfl
  · intro hnd
    have hnd2 : ((finishEndpoints port.protocol σ₂).map
        (fun e => e.addrPort.addr)).Nodup :=
      ((hperm.map _).nodup_iff).mp hnd
    have hne1 : (finishEndpoints port.protocol σ₁).Pairwise
        (fun a b => a.addrPort.addr ≠ b.addrPort.addr) :=
      List.pairwise_map.mp hnd
    have hne2 : (finishEndpoints port.protocol σ₂).Pairwise
        (fun a b => a.addrPort.addr ≠ b.addrPort.addr) :=
      List.pairwise_map.mp hnd2
    have hlt1 : (finishEndpoints port.protocol σ₁).Pairwise
        (fun a b => Addr.lt a.addrPort.addr b.addrPort.addr = true) :=
      (hs1.and hne1).imp (fun h => addrLt_of_le_of_ne h.1 h.2)
    have hlt2 : (finishEndpoints port.protocol σ₂).Pairwise
        (fun a b => Addr.lt a.addrPort.addr b.addrPort.addr = true) :=
      (hs2.and hne2).imp (fun h => addrLt_of_le_of_ne h.1 h.2)
    haveI : IsAntisymm ServiceEndpoint
        (fun a b => Addr.lt a.addrPort.addr b.addrPort.addr = true) :=
      ⟨fun a b hab hba => (addrLt_asymm hab hba).elim⟩
    exact List.eq_of_perm_of_sorted hperm hlt1 hlt2

theorem c8_amended_determinism_witness :
    buildEndpoints cexCfg cexCluster cexSvc ⟨80, Protocol.tcp⟩ =
      .ok (finishEndpoints Protocol.tcp cexEntries) ∧
    (finishEndpoints Protocol.tcp cexEntries.reverse).Perm
      (finishEndpoints Protocol.tcp cexEntries) ∧
    (finishEndpoints Protocol.tcp cexEntries.reverse).Pairwise
      (fun a b => Addr.le a.addrPort.addr b.addrPort.addr = true) ∧
    (((finishEndpoints Protocol.tcp cexEntries.reverse).map
        (fun e => e.addrPort.addr)).Nodup →
      finishEndpoints Protocol.tcp cexEntries.reverse =
        finishEndpoints Protocol.tcp cexEntries) :=
  c8_amended_determinism cexCfg cexCluster cexSvc ⟨80, Protocol.tcp⟩ cexSp cexEntries
    cexEntries.reverse cexEntries (by rfl) (by rfl)
    (List.reverse_perm cexEntries) (List.Perm.refl cexEntries)

end XdsLB
